import Mathlib

/-!
# mrpt::nav::CParameterizedTrajectoryGenerator

A shallow embedding of `libs/nav/src/tpspace/CParameterizedTrajectoryGenerator.cpp`.

* `double` values that are only compared, copied or combined arithmetically are
  elements of a linearly ordered field `K` (exact arithmetic; instantiate `K := ℚ`
  to evaluate, `K := ℝ` for the real-number reading).
* `double` values that are only copied to and from a stream are their 64-bit
  IEEE-754 patterns, a `Nat` below `2 ^ 64`.
* The pure virtual members implemented by each derived class are the fields of a
  `PTGVirtuals` record; the data members of the derived class are a value of an
  arbitrary type `G`.
* A C++ exception is an `Except.error`; where the object is mutated before the
  throw, the mutated object is returned next to the result.
-/

namespace mrpt.nav

/-! ## Data model -/

/-- The value type of `PTG_collision_behavior_t`: the enumeration is stored as an
integer, so the static `COLLISION_BEHAVIOR` can hold a value that is none of the
enumerators (the `default:` label of the switch). -/
abbrev PTG_collision_behavior_t := Int

/-- Enumerator `COLL_BEH_BACK_AWAY` (the enumerators are declared in the class header;
only that their values differ matters here). -/
def COLL_BEH_BACK_AWAY : PTG_collision_behavior_t := 0

/-- Enumerator `COLL_BEH_STOP`. -/
def COLL_BEH_STOP : PTG_collision_behavior_t := 1

/-- The exceptions thrown by the member functions embedded here. -/
inductive PTGError where
  /-- Thrown by `THROW_EXCEPTION(msg)`. -/
  | exception (msg : String)
  /-- Thrown by `MRPT_THROW_UNKNOWN_SERIALIZATION_VERSION(version)`. -/
  | unknownSerializationVersion (version : Nat)
  /-- The stream ended before the requested bytes were read (thrown by `CStream`). -/
  | endOfStream
  deriving DecidableEq, Repr

/-- A call of a virtual member that changes the derived object, as recorded in the
call log of the generator. -/
inductive VirtualCall where
  | internal_initialize (cacheFilename : String) (verbose : Bool)
  | internal_deinitialize
  deriving DecidableEq, Repr

/-- The data members of `CParameterizedTrajectoryGenerator`, followed by the data
members of the derived class (`derived`) and a log of the mutating virtual calls
made so far (`calls`, most recent first; a ghost field). `D` is the type standing
for `double`. -/
structure CParameterizedTrajectoryGenerator (D G : Type) where
  refDistance : D
  m_alphaValuesCount : Nat
  m_score_priority : D
  m_is_initialized : Bool
  derived : G
  calls : List VirtualCall

/-- The pure virtual members of the class, supplied by the derived class. The
`const` ones read the derived object, the two `internal_` ones replace it. -/
structure PTGVirtuals (K G : Type) where
  getPathStepCount : G → Nat → Nat
  getPathDist : G → Nat → Nat → K
  isPointInsideRobotShape : G → K → K → Bool
  getApproxRobotRadius : G → K
  internal_initialize : String → Bool → G → G
  internal_deinitialize : G → G

variable {G : Type}

section Arithmetic
variable {K : Type} [LinearOrderedField K]

/-! ## Obstacle post-processing -/

/-- Modelled from the spec: `mrpt::utils::keep_min(var, test_val)` (declared in a header
that is not among the sources), "keeping the minimum of current and candidate":
`if (test_val < var) var = test_val;`. Returns the new value of `var`. -/
def keep_min (var test_val : K) : K :=
  if test_val < var then test_val else var

/-- The standard `std::min(a, b)`: `(b < a) ? b : a`. -/
def std_min (a b : K) : K :=
  if b < a then b else a

/-- Member `CParameterizedTrajectoryGenerator::internal_TPObsDistancePostprocess`.
Returns the new value of the in/out argument `inout_tp_obs`, or the exception
thrown by the `default:` label. -/
def internal_TPObsDistancePostprocess (V : PTGVirtuals K G)
    (COLLISION_BEHAVIOR : PTG_collision_behavior_t)
    (self : CParameterizedTrajectoryGenerator K G)
    (ox oy new_tp_obs_dist inout_tp_obs : K) : Except PTGError K :=
  let is_obs_inside_robot_shape := V.isPointInsideRobotShape self.derived ox oy
  if !is_obs_inside_robot_shape then
    .ok (keep_min inout_tp_obs new_tp_obs_dist)
  else if COLLISION_BEHAVIOR = COLL_BEH_STOP then
    .ok 0
  else if COLLISION_BEHAVIOR = COLL_BEH_BACK_AWAY then
    if new_tp_obs_dist < V.getApproxRobotRadius self.derived then
      .ok inout_tp_obs
    else
      .ok 0
  else
    .error (.exception "Obstacle postprocessing enum not implemented!")

/-- An obstacle point as seen by one path: its coordinates and the candidate
distance computed for that path. -/
structure TPObstaclePoint (K : Type) where
  ox : K
  oy : K
  new_tp_obs_dist : K

/-- Modelled from the spec: the per-path loop of the derived class (its
`updateTPObstacle`, not part of this file) that folds the candidate distance of
each obstacle point, in order, into the free distance of one path through
`internal_TPObsDistancePostprocess`. An exception ends the loop. -/
def foldTPObstacles (V : PTGVirtuals K G) (COLLISION_BEHAVIOR : PTG_collision_behavior_t)
    (self : CParameterizedTrajectoryGenerator K G) :
    K → List (TPObstaclePoint K) → Except PTGError K
  | tp_obs, [] => .ok tp_obs
  | tp_obs, o :: rest =>
    match internal_TPObsDistancePostprocess V COLLISION_BEHAVIOR self
        o.ox o.oy o.new_tp_obs_dist tp_obs with
    | .ok tp_obs' => foldTPObstacles V COLLISION_BEHAVIOR self tp_obs' rest
    | .error e => .error e

/-! ## No-obstacle baseline -/

/-- The `size_t` subtraction `n - 1` (wraps to `2 ^ 64 - 1` at `n = 0`). -/
def size_t_pred (n : Nat) : Nat :=
  (n % 2 ^ 64 + (2 ^ 64 - 1)) % 2 ^ 64

/-- Member `CParameterizedTrajectoryGenerator::initTPObstacleSingle`: the value assigned
to `TP_Obstacle_k`. The argument `k` has type `uint16_t`. -/
def initTPObstacleSingle (V : PTGVirtuals K G)
    (self : CParameterizedTrajectoryGenerator K G) (k : Nat) : K :=
  std_min self.refDistance
    (V.getPathDist self.derived k (size_t_pred (V.getPathStepCount self.derived k)))

/-- The standard `std::vector<double>::resize(n)`: truncate, or pad with value-initialised
elements. -/
def vector_resize (v : List K) (n : Nat) : List K :=
  v.take n ++ List.replicate (n - v.length) 0

/-- The `for` loop of `initTPObstacles`, from index `k` with `fuel` iterations
left: `initTPObstacleSingle(k, TP_Obstacles[k])`, the `size_t` index being
converted to the `uint16_t` parameter. -/
def initTPObstacles_loop (V : PTGVirtuals K G)
    (self : CParameterizedTrajectoryGenerator K G) : Nat → Nat → List K → List K
  | 0, _, TP_Obstacles => TP_Obstacles
  | fuel + 1, k, TP_Obstacles =>
    initTPObstacles_loop V self fuel (k + 1)
      (TP_Obstacles.set k (initTPObstacleSingle V self (k % 2 ^ 16)))

/-- Member `CParameterizedTrajectoryGenerator::initTPObstacles`: the new contents of the
in/out vector `TP_Obstacles`. -/
def initTPObstacles (V : PTGVirtuals K G)
    (self : CParameterizedTrajectoryGenerator K G) (TP_Obstacles : List K) : List K :=
  initTPObstacles_loop V self self.m_alphaValuesCount 0
    (vector_resize TP_Obstacles self.m_alphaValuesCount)

/-! ## Alpha discretisation -/

/-- The tie-breaking rule of `mrpt::utils::round` at a value exactly halfway
between two integers. -/
inductive RoundRule where
  /-- Ties go to the even neighbour (`lrint` in the default rounding mode). -/
  | halfEven
  /-- Ties go away from zero. -/
  | halfAwayFromZero
  /-- Ties go up. -/
  | halfUp
  deriving DecidableEq, Repr

section Floor
variable [FloorRing K]

/-- Modelled from the spec: `mrpt::math::wrapToPi` (declared in a header that is not
among the sources). "Input α is first wrapped into [−π, π)": the value returned is the
representative of `a` modulo `2π` in that interval; the argument is passed by value.
`M_PI` is the constant of `<cmath>`. -/
def wrapToPi (M_PI a : K) : K :=
  a - 2 * M_PI * (⌊(a + M_PI) / (2 * M_PI)⌋ : Int)

/-- Modelled from the spec: `mrpt::utils::round` (declared in a header that is not
among the sources). "Round to nearest integer"; the spec leaves the choice at a tie
open, so the rule is an argument. -/
def utils_round (rule : RoundRule) (x : K) : Int :=
  let f : Int := ⌊x⌋
  if x - f < 1 / 2 then f
  else if 1 / 2 < x - f then f + 1
  else
    match rule with
    | .halfEven => if f % 2 = 0 then f else f + 1
    | .halfAwayFromZero => if 0 ≤ f then f + 1 else f
    | .halfUp => f + 1

/-- The conversion of an integer value to the 32-bit `int`: a value outside the range
of `int` wraps modulo `2 ^ 32`. -/
def to_int32 (z : Int) : Int :=
  (z + 2 ^ 31) % 2 ^ 32 - 2 ^ 31

/-- Member `CParameterizedTrajectoryGenerator::alpha2index`. `M_PI` is the constant of
`<cmath>` and `rule` the tie-breaking rule of `mrpt::utils::round`. The first statement,
`mrpt::math::wrapToPi(alpha);`, passes `alpha` by value and drops the wrapped angle it
gets back, so `alpha` goes on unchanged. The local `k` is an `int`; the result is its
conversion to `uint16_t`. -/
def alpha2index (M_PI : K) (rule : RoundRule)
    (self : CParameterizedTrajectoryGenerator K G) (alpha : K) : Nat :=
  let _ := wrapToPi M_PI alpha
  let k : Int := to_int32 (utils_round rule
    (1 / 2 * ((self.m_alphaValuesCount : K) * (1 + alpha / M_PI) - 1)))
  let k : Int := if k < 0 then 0 else k
  let k : Int := if k ≥ (self.m_alphaValuesCount : Int) then
    (self.m_alphaValuesCount : Int) - 1 else k
  (k % 2 ^ 16).toNat

/-- The index in the words of the spec: "Input α is first wrapped into [−π, π).
Computes k = round(0.5 × (pathCount × (1 + α/π) − 1)), then clamps to
[0, pathCount−1]." -/
def specAlphaToIndex (M_PI : K) (rule : RoundRule) (pathCount : Nat) (alpha : K) : Int :=
  max 0 (min ((pathCount : Int) - 1)
    (utils_round rule
      (1 / 2 * ((pathCount : K) * (1 + wrapToPi M_PI alpha / M_PI) - 1))))

end Floor

/-- Modelled from the spec: `index2alpha` (defined in the class header, which is not
among the sources), the way back from a path index to the angle at the centre of its
slot, `π (-1 + (2k + 1) / N)`. -/
def index2alpha (M_PI : K) (self : CParameterizedTrajectoryGenerator K G) (k : Nat) : K :=
  M_PI * (-1 + (2 * (k : K) + 1) / (self.m_alphaValuesCount : K))

/-! ## Rendering -/

/-- The constructor `CParameterizedTrajectoryGenerator()`, for a derived object
`derived`. -/
def CParameterizedTrajectoryGenerator.ctor (derived : G) :
    CParameterizedTrajectoryGenerator K G :=
  { refDistance := 0, m_alphaValuesCount := 0, m_score_priority := 1,
    m_is_initialized := false, derived := derived, calls := [] }

/-- Member `CParameterizedTrajectoryGenerator::loadDefaultParams`. -/
def loadDefaultParams (self : CParameterizedTrajectoryGenerator K G) :
    CParameterizedTrajectoryGenerator K G :=
  { self with m_alphaValuesCount := 121, refDistance := 6, m_score_priority := 1 }

end Arithmetic

section Codec
variable {K : Type}

/-! ## Lifecycle -/

/-- Member `CParameterizedTrajectoryGenerator::isInitialized`. -/
def isInitialized {D : Type} (self : CParameterizedTrajectoryGenerator D G) : Bool :=
  self.m_is_initialized

/-- Member `CParameterizedTrajectoryGenerator::deinitialize`. -/
def deinitialize {D : Type} (V : PTGVirtuals K G)
    (self : CParameterizedTrajectoryGenerator D G) : CParameterizedTrajectoryGenerator D G :=
  if !self.m_is_initialized then self
  else
    { self with
      derived := PTGVirtuals.internal_deinitialize V self.derived
      calls := VirtualCall.internal_deinitialize :: self.calls
      m_is_initialized := false }

/-- Member `CParameterizedTrajectoryGenerator::initialize`. -/
def CParameterizedTrajectoryGenerator.initialize {D : Type} (V : PTGVirtuals K G)
    (self : CParameterizedTrajectoryGenerator D G) (cacheFilename : String)
    (verbose : Bool) : CParameterizedTrajectoryGenerator D G :=
  if self.m_is_initialized then self
  else
    { self with
      derived := PTGVirtuals.internal_initialize V cacheFilename verbose self.derived
      calls := VirtualCall.internal_initialize cacheFilename verbose :: self.calls
      m_is_initialized := true }

/-- A call of a client on the lifecycle members. -/
inductive LifecycleCall where
  | call_initialize (cacheFilename : String) (verbose : Bool)
  | call_deinitialize
  deriving DecidableEq, Repr

/-- The generator after a sequence of lifecycle calls. -/
def runLifecycle {D : Type} (V : PTGVirtuals K G) :
    CParameterizedTrajectoryGenerator D G → List LifecycleCall →
      CParameterizedTrajectoryGenerator D G
  | self, [] => self
  | self, LifecycleCall.call_initialize c v :: rest =>
    runLifecycle V ( CParameterizedTrajectoryGenerator.initialize V self c v) rest
  | self, LifecycleCall.call_deinitialize :: rest =>
    runLifecycle V ( deinitialize V self) rest

/-- The number of geometry constructions, the calls of `internal_initialize`, in a
call log. -/
def geometryConstructions : List VirtualCall → Nat
  | [] => 0
  | VirtualCall.internal_initialize _ _ :: rest => geometryConstructions rest + 1
  | VirtualCall.internal_deinitialize :: rest => geometryConstructions rest

/-- The number of teardowns, the calls of `internal_deinitialize`, in a call log. -/
def geometryTeardowns : List VirtualCall → Nat
  | [] => 0
  | VirtualCall.internal_initialize _ _ :: rest => geometryTeardowns rest
  | VirtualCall.internal_deinitialize :: rest => geometryTeardowns rest + 1

/-- The number of `initialize` calls of a sequence that reach the generator while
`isInitialized()` is false. -/
def initializeCallsWhileUninitialized {D : Type} (V : PTGVirtuals K G) :
    CParameterizedTrajectoryGenerator D G → List LifecycleCall → Nat
  | _, [] => 0
  | self, LifecycleCall.call_initialize c v :: rest =>
    (if isInitialized self then 0 else 1) +
      initializeCallsWhileUninitialized V
        ( CParameterizedTrajectoryGenerator.initialize V self c v) rest
  | self, LifecycleCall.call_deinitialize :: rest =>
    initializeCallsWhileUninitialized V ( deinitialize V self) rest

/-! ## Serialization -/

/-- One byte of a stream. -/
abbrev Byte := Fin 256

/-- The `n` bytes of the value `v`, least significant first (the byte order of
MRPT streams). -/
def toBytesLE : Nat → Nat → List Byte
  | 0, _ => []
  | n + 1, v => Fin.ofNat (v % 256) :: toBytesLE n (v / 256)

/-- The value of a little-endian byte string. -/
def fromBytesLE : List Byte → Nat
  | [] => 0
  | b :: bs => b.val + 256 * fromBytesLE bs

/-- Modelled from the spec: `CStream::operator>>` for an `n`-byte plain value (the
stream class is not among the sources; the spec fixes the field widths of the wire
format). The value and the rest of the stream, or the end-of-stream exception when
fewer than `n` bytes are left (the bytes that were there are consumed). -/
def CStream_read (n : Nat) (s : List Byte) : Except PTGError Nat × List Byte :=
  if s.length < n then (.error .endOfStream, [])
  else (.ok (fromBytesLE (s.take n)), s.drop n)

/-- Modelled from the spec: `CStream::operator<<` for an `n`-byte plain value (the
stream class is not among the sources): the value's `n` bytes are appended. -/
def CStream_write (n : Nat) (v : Nat) (s : List Byte) : List Byte :=
  s ++ toBytesLE n v

/-- The size of a `double` in bytes, `sizeof(double)`. -/
def sizeof_double : Nat := 8

/-- Member `CParameterizedTrajectoryGenerator::internal_writeToStream`: the stream after
the call. The `double` members are their 64-bit patterns. `sizeof_count` is the size
in bytes of the member `m_alphaValuesCount`, whose declaration is in the class
header. -/
def internal_writeToStream (sizeof_count : Nat)
    (self : CParameterizedTrajectoryGenerator Nat G) (out : List Byte) : List Byte :=
  let version : Nat := 0
  let out := CStream_write 1 version out
  let out := CStream_write sizeof_double self.refDistance out
  let out := CStream_write sizeof_count self.m_alphaValuesCount out
  CStream_write sizeof_double self.m_score_priority out

/-- The outcome of a member function that reads a stream and may throw: normal
return or exception, the object after the call, and the rest of the stream. -/
structure ReadOutcome (G : Type) where
  result : Except PTGError Unit
  self : CParameterizedTrajectoryGenerator Nat G
  rest : List Byte

/-- Member `CParameterizedTrajectoryGenerator::internal_readFromStream`. A failed read
throws before its destination is assigned. -/
def internal_readFromStream (sizeof_count : Nat) (V : PTGVirtuals K G)
    (self : CParameterizedTrajectoryGenerator Nat G) (in_ : List Byte) : ReadOutcome G :=
  let self := deinitialize V self
  match CStream_read 1 in_ with
  | (.error e, in_) => ⟨.error e, self, in_⟩
  | (.ok version, in_) =>
    if version = 0 then
      match CStream_read sizeof_double in_ with
      | (.error e, in_) => ⟨.error e, self, in_⟩
      | (.ok v, in_) =>
        let self := { self with refDistance := v }
        match CStream_read sizeof_count in_ with
        | (.error e, in_) => ⟨.error e, self, in_⟩
        | (.ok v, in_) =>
          let self := { self with m_alphaValuesCount := v }
          match CStream_read sizeof_double in_ with
          | (.error e, in_) => ⟨.error e, self, in_⟩
          | (.ok v, in_) => ⟨.ok (), { self with m_score_priority := v }, in_⟩
    else ⟨.error (.unknownSerializationVersion version), self, in_⟩

end Codec

/-! ## The wire format in the words of the spec -/

/-- The wire format as the spec words it: "one version tag byte followed by a
fixed-order encoding of pathCount (8-byte unsigned), referenceDistance (8-byte
floating point), scorePriority (8-byte floating point)". -/
def specWireFormat (self : CParameterizedTrajectoryGenerator Nat G) : List Byte :=
  toBytesLE 1 0 ++ toBytesLE 8 self.m_alphaValuesCount ++ toBytesLE 8 self.refDistance ++
    toBytesLE 8 self.m_score_priority

/-! ## Sample objects -/

/-- A derived class for evaluation: a disc-shaped robot of radius 1/2 whose paths
all have 11 steps, step `n` lying at distance `n / 2`. -/
def discRobot : PTGVirtuals ℚ Unit where
  getPathStepCount _ _ := 11
  getPathDist _ _ n := (n : ℚ) / 2
  isPointInsideRobotShape _ x y := decide (x * x + y * y ≤ 1 / 4)
  getApproxRobotRadius _ := 1 / 2
  internal_initialize _ _ g := g
  internal_deinitialize g := g

/-- A generator holding the default parameters. -/
def defaultPTG : CParameterizedTrajectoryGenerator ℚ Unit :=
  loadDefaultParams (CParameterizedTrajectoryGenerator.ctor ())

/-- The bit pattern of the `double` 6.0. -/
def double_6_0 : Nat := 0x4018000000000000

/-- The bit pattern of the `double` 1.0. -/
def double_1_0 : Nat := 0x3FF0000000000000

/-- A generator holding the default parameters, its `double` members as bit
patterns. -/
def defaultPTGBits : CParameterizedTrajectoryGenerator Nat Unit :=
  { refDistance := double_6_0, m_alphaValuesCount := 121, m_score_priority := double_1_0,
    m_is_initialized := false, derived := (), calls := [] }

/-- An initialized generator holding other parameters, used as the reading side. -/
def staleReaderBits : CParameterizedTrajectoryGenerator Nat Unit :=
  { refDistance := 0, m_alphaValuesCount := 7, m_score_priority := 0,
    m_is_initialized := true, derived := (), calls := [] }

/-- Three obstacle points for one path; the second lies inside the disc robot. -/
def sampleObstacles : List (TPObstaclePoint ℚ) :=
  [⟨3, 0, 2⟩, ⟨0, 0, 1⟩, ⟨4, 0, 3⟩]

/-- The serialization of the default parameters with its version byte set to 1. -/
def corruptedStream : List Byte :=
  (internal_writeToStream 2 defaultPTGBits []).set 0 1

/-- A derived class whose precomputed geometry is a table of path lengths, built by
`internal_initialize` and discarded by `internal_deinitialize`. -/
def tableRobot : PTGVirtuals ℚ (List ℚ) where
  getPathStepCount _ _ := 11
  getPathDist g k _ := g.getD k 0
  isPointInsideRobotShape _ x y := decide (x * x + y * y ≤ 1 / 4)
  getApproxRobotRadius _ := 1 / 2
  internal_initialize _ _ _ := [5, 5, 5]
  internal_deinitialize _ := []

/-- An initialized generator of `tableRobot` holding the default parameters and its
geometry. -/
def readyPTGBits : CParameterizedTrajectoryGenerator Nat (List ℚ) :=
  { refDistance := double_6_0, m_alphaValuesCount := 121, m_score_priority := double_1_0,
    m_is_initialized := true, derived := [5, 5, 5],
    calls := [VirtualCall.internal_initialize "cache" false] }

/-- Two obstacle points for one path, both outside the disc robot. -/
def outsideObstacles : List (TPObstaclePoint ℚ) :=
  [⟨3, 0, 2⟩, ⟨4, 0, 3⟩]

section ArithmeticTheorems
variable {K : Type} [LinearOrderedField K]

/-! ## Theorems: obstacle post-processing -/

theorem keep_min_eq_min (a b : K) : keep_min a b = min a b := by
  unfold keep_min
  split_ifs with h
  · exact (min_eq_right h.le).symm
  · exact (min_eq_left (not_lt.mp h)).symm

theorem std_min_eq_min (a b : K) : std_min a b = min a b := by
  unfold std_min
  split_ifs with h
  · exact (min_eq_right h.le).symm
  · exact (min_eq_left (not_lt.mp h)).symm

/-- One call in Stop or BackAway mode returns normally, and the new free distance is
the old one, the candidate, or 0, and in each case at most the old one when the
old one is non-negative. -/
theorem postprocess_step_bounds (V : PTGVirtuals K G)
    (mode : PTG_collision_behavior_t) (hmode : mode = COLL_BEH_STOP ∨ mode = COLL_BEH_BACK_AWAY)
    (self : CParameterizedTrajectoryGenerator K G) (ox oy c d : K)
    (hc : 0 ≤ c) (hd : 0 ≤ d) :
    ∃ d', internal_TPObsDistancePostprocess V mode self ox oy c d = .ok d' ∧
      0 ≤ d' ∧ d' ≤ d := by
  unfold internal_TPObsDistancePostprocess
  by_cases hin : V.isPointInsideRobotShape self.derived ox oy = true
  · rcases hmode with h | h
    · subst h
      exact ⟨0, by simp [hin], le_refl _, hd⟩
    · subst h
      by_cases hr : c < V.getApproxRobotRadius self.derived
      · exact ⟨d, by simp [hin, hr, COLL_BEH_BACK_AWAY, COLL_BEH_STOP], hd, le_refl _⟩
      · exact ⟨0, by simp [hin, hr, COLL_BEH_BACK_AWAY, COLL_BEH_STOP], le_refl _, hd⟩
  · refine ⟨keep_min d c, by simp [hin], ?_, ?_⟩
    · rw [keep_min_eq_min]; exact le_min hd hc
    · rw [keep_min_eq_min]; exact min_le_left _ _

/-- The fold in Stop or BackAway mode returns normally with a value between 0 and
the starting value. -/
theorem fold_bounds (V : PTGVirtuals K G)
    (mode : PTG_collision_behavior_t) (hmode : mode = COLL_BEH_STOP ∨ mode = COLL_BEH_BACK_AWAY)
    (self : CParameterizedTrajectoryGenerator K G) (obs : List (TPObstaclePoint K)) :
    ∀ d : K, 0 ≤ d → (∀ o ∈ obs, 0 ≤ o.new_tp_obs_dist) →
      ∃ d', foldTPObstacles V mode self d obs = .ok d' ∧ 0 ≤ d' ∧ d' ≤ d := by
  induction obs with
  | nil => intro d hd _; exact ⟨d, rfl, hd, le_refl _⟩
  | cons o rest ih =>
    intro d hd hc
    obtain ⟨d1, h1, h1a, h1b⟩ := postprocess_step_bounds V mode hmode self o.ox o.oy
      o.new_tp_obs_dist d (hc o (List.mem_cons_self _ _)) hd
    obtain ⟨d2, h2, h2a, h2b⟩ := ih d1 h1a (fun p hp => hc p (List.mem_cons_of_mem _ hp))
    refine ⟨d2, ?_, h2a, le_trans h2b h1b⟩
    simp only [foldTPObstacles, h1]
    exact h2

/-- C1. Stop mode: if some obstacle of the sequence lies inside the robot shape and
all candidate distances are non-negative, the fold of the sequence through
`internal_TPObsDistancePostprocess` returns the free distance 0, whatever the
starting value. -/
theorem stop_mode_inside_obstacle_forces_zero (V : PTGVirtuals K G)
    (self : CParameterizedTrajectoryGenerator K G) (d0 : K)
    (obs : List (TPObstaclePoint K))
    (hc : ∀ o ∈ obs, 0 ≤ o.new_tp_obs_dist)
    (hin : ∃ o ∈ obs, V.isPointInsideRobotShape self.derived o.ox o.oy = true) :
    foldTPObstacles V COLL_BEH_STOP self d0 obs = .ok 0 := by
  induction obs generalizing d0 with
  | nil => obtain ⟨o, ho, _⟩ := hin; cases ho
  | cons o rest ih =>
    have hrest : ∀ p ∈ rest, 0 ≤ p.new_tp_obs_dist :=
      fun p hp => hc p (List.mem_cons_of_mem _ hp)
    by_cases ho : V.isPointInsideRobotShape self.derived o.ox o.oy = true
    · obtain ⟨d', h', h0, h1⟩ := fold_bounds V COLL_BEH_STOP (Or.inl rfl) self rest 0
        (le_refl _) hrest
      have : d' = 0 := le_antisymm h1 h0
      subst this
      simp only [foldTPObstacles, internal_TPObsDistancePostprocess, ho]
      simpa using h'
    · have hin' : ∃ p ∈ rest, V.isPointInsideRobotShape self.derived p.ox p.oy = true := by
        obtain ⟨p, hp, hp'⟩ := hin
        rcases List.mem_cons.mp hp with rfl | hp2
        · exact absurd hp' ho
        · exact ⟨p, hp2, hp'⟩
      simp only [foldTPObstacles, internal_TPObsDistancePostprocess, ho]
      simpa using ih _ hrest hin'

/-- C2. BackAway mode, obstacle point inside the robot shape: one call leaves the
free distance unchanged when the candidate distance is below
`getApproxRobotRadius()`, and sets it to 0 when the candidate distance is at least
`getApproxRobotRadius()`. -/
theorem back_away_inside_obstacle (V : PTGVirtuals K G)
    (self : CParameterizedTrajectoryGenerator K G) (ox oy c d : K)
    (hin : V.isPointInsideRobotShape self.derived ox oy = true) :
    (c < V.getApproxRobotRadius self.derived →
      internal_TPObsDistancePostprocess V COLL_BEH_BACK_AWAY self ox oy c d = .ok d) ∧
    (V.getApproxRobotRadius self.derived ≤ c →
      internal_TPObsDistancePostprocess V COLL_BEH_BACK_AWAY self ox oy c d = .ok 0) := by
  constructor
  · intro hr
    simp [internal_TPObsDistancePostprocess, hin, hr, COLL_BEH_BACK_AWAY, COLL_BEH_STOP]
  · intro hr
    simp [internal_TPObsDistancePostprocess, hin, not_lt.mpr hr, COLL_BEH_BACK_AWAY,
      COLL_BEH_STOP]

/-- C3. Free-distance bounds: in Stop and in BackAway mode, starting from the
no-obstacle baseline `b = min(refDistance, getPathDist(k, last step))` of a path `k`
with `0 ≤ b`, the fold of every prefix of a sequence of obstacle points with
non-negative candidate distances (so every intermediate value and the final one)
returns a free distance `d` with `0 ≤ d ≤ b`. -/
theorem free_distance_bounds (V : PTGVirtuals K G)
    (mode : PTG_collision_behavior_t) (hmode : mode = COLL_BEH_STOP ∨ mode = COLL_BEH_BACK_AWAY)
    (self : CParameterizedTrajectoryGenerator K G) (k : Nat)
    (obs : List (TPObstaclePoint K))
    (hb : 0 ≤ initTPObstacleSingle V self k)
    (hc : ∀ o ∈ obs, 0 ≤ o.new_tp_obs_dist) :
    (∀ n, ∃ d, foldTPObstacles V mode self (initTPObstacleSingle V self k) (obs.take n)
        = .ok d ∧ 0 ≤ d ∧ d ≤ initTPObstacleSingle V self k) ∧
    ∃ d, foldTPObstacles V mode self (initTPObstacleSingle V self k) obs
        = .ok d ∧ 0 ≤ d ∧ d ≤ initTPObstacleSingle V self k :=
  ⟨fun n => fold_bounds V mode hmode self (obs.take n) _ hb
      (fun o ho => hc o (List.mem_of_mem_take ho)),
    fold_bounds V mode hmode self obs _ hb hc⟩

/-! ## Theorems: the fold in closed form -/

/-- The running minimum of a list is a lower bound of the start value and of every
element, and is one of them. -/
theorem foldl_min_spec (l : List K) :
    ∀ d : K, List.foldl min d l ≤ d ∧ (∀ c ∈ l, List.foldl min d l ≤ c) ∧
      (List.foldl min d l = d ∨ List.foldl min d l ∈ l) := by
  induction l with
  | nil => intro d; simp
  | cons a rest ih =>
    intro d
    obtain ⟨h1, h2, h3⟩ := ih (min d a)
    refine ⟨le_trans h1 (min_le_left _ _), ?_, ?_⟩
    · intro c hc
      rcases List.mem_cons.mp hc with rfl | hc'
      · exact le_trans h1 (min_le_right _ _)
      · exact h2 c hc'
    · rcases h3 with h | h
      · rcases min_choice d a with hm | hm
        · left; rw [List.foldl_cons, h, hm]
        · right; rw [List.foldl_cons, h, hm]; exact List.mem_cons_self _ _
      · right; exact List.mem_cons_of_mem _ h

/-- The running minimum does not depend on the order of the list. -/
theorem foldl_min_perm {l1 l2 : List K} (hp : l1.Perm l2) (d : K) :
    List.foldl min d l1 = List.foldl min d l2 :=
  List.Perm.foldl_eq' hp (fun x _ y _ z => min_right_comm z x y) d

/-- The fold over obstacle points none of which is inside the robot shape never looks
at the collision mode and is the running minimum of the candidate distances. -/
theorem fold_not_inside (V : PTGVirtuals K G) (mode : PTG_collision_behavior_t)
    (self : CParameterizedTrajectoryGenerator K G) (obs : List (TPObstaclePoint K)) :
    ∀ d0 : K, (∀ o ∈ obs, V.isPointInsideRobotShape self.derived o.ox o.oy = false) →
      foldTPObstacles V mode self d0 obs =
        .ok (List.foldl min d0 (obs.map TPObstaclePoint.new_tp_obs_dist)) := by
  induction obs with
  | nil => intro d0 _; rfl
  | cons o rest ih =>
    intro d0 hout
    have ho := hout o (List.mem_cons_self _ _)
    simp only [foldTPObstacles, internal_TPObsDistancePostprocess, ho, keep_min_eq_min]
    simpa using ih (min d0 o.new_tp_obs_dist) (fun p hp => hout p (List.mem_cons_of_mem _ hp))

/-- C14. Not-inside-footprint fold: for every starting free distance and every list of
obstacle points none of which lies inside the robot shape, in every collision mode
(also an unrecognised one) the fold returns the minimum of the starting value and all
candidate distances (a lower bound of all of them that is one of them), and the fold
of any permutation of the list returns the same. -/
theorem not_inside_fold_is_min (V : PTGVirtuals K G) (mode : PTG_collision_behavior_t)
    (self : CParameterizedTrajectoryGenerator K G) (d0 : K)
    (obs obs' : List (TPObstaclePoint K))
    (hout : ∀ o ∈ obs, V.isPointInsideRobotShape self.derived o.ox o.oy = false)
    (hperm : obs.Perm obs') :
    foldTPObstacles V mode self d0 obs =
      .ok (List.foldl min d0 (obs.map TPObstaclePoint.new_tp_obs_dist)) ∧
    List.foldl min d0 (obs.map TPObstaclePoint.new_tp_obs_dist) ≤ d0 ∧
    (∀ o ∈ obs, List.foldl min d0 (obs.map TPObstaclePoint.new_tp_obs_dist)
      ≤ o.new_tp_obs_dist) ∧
    (List.foldl min d0 (obs.map TPObstaclePoint.new_tp_obs_dist) = d0 ∨
      ∃ o ∈ obs, List.foldl min d0 (obs.map TPObstaclePoint.new_tp_obs_dist)
        = o.new_tp_obs_dist) ∧
    foldTPObstacles V mode self d0 obs' = foldTPObstacles V mode self d0 obs := by
  obtain ⟨h1, h2, h3⟩ := foldl_min_spec (obs.map TPObstaclePoint.new_tp_obs_dist) d0
  have hout' : ∀ o ∈ obs', V.isPointInsideRobotShape self.derived o.ox o.oy = false :=
    fun o ho => hout o (hperm.mem_iff.mpr ho)
  refine ⟨fold_not_inside V mode self obs d0 hout, h1, ?_, ?_, ?_⟩
  · intro o ho
    exact h2 _ (List.mem_map_of_mem _ ho)
  · rcases h3 with h | h
    · exact Or.inl h
    · obtain ⟨o, ho, hEq⟩ := List.mem_map.mp h
      exact Or.inr ⟨o, ho, hEq.symm⟩
  · rw [fold_not_inside V mode self obs d0 hout, fold_not_inside V mode self obs' d0 hout',
      foldl_min_perm (hperm.map _) d0]

/-- C15 (as stated, refuted). With the collision mode set to 7, neither Stop nor
BackAway, the call for an obstacle point outside the robot shape returns normally with
a free distance, the minimum of the old one and the candidate. -/
theorem unrecognized_mode_not_inside_returns :
    (7 : PTG_collision_behavior_t) ≠ COLL_BEH_STOP ∧
    (7 : PTG_collision_behavior_t) ≠ COLL_BEH_BACK_AWAY ∧
    discRobot.isPointInsideRobotShape defaultPTG.derived 3 0 = false ∧
    internal_TPObsDistancePostprocess discRobot 7 defaultPTG 3 0 2 5 = .ok 2 := by
  refine ⟨by decide, by decide, ?_, ?_⟩
  · norm_num [discRobot]
  · norm_num [internal_TPObsDistancePostprocess, discRobot, keep_min]

/-- C15 (amended). With a collision mode that is neither Stop nor BackAway, the call
throws for every obstacle point inside the robot shape, whatever the candidate and the
current free distance; for a point outside the robot shape the mode is not looked at
and the call returns the minimum of the current free distance and the candidate. -/
theorem unrecognized_mode_throws_inside (V : PTGVirtuals K G)
    (mode : PTG_collision_behavior_t)
    (hs : mode ≠ COLL_BEH_STOP) (hb : mode ≠ COLL_BEH_BACK_AWAY)
    (self : CParameterizedTrajectoryGenerator K G) (ox oy c d : K) :
    (V.isPointInsideRobotShape self.derived ox oy = true →
      internal_TPObsDistancePostprocess V mode self ox oy c d =
        .error (.exception "Obstacle postprocessing enum not implemented!")) ∧
    (V.isPointInsideRobotShape self.derived ox oy = false →
      internal_TPObsDistancePostprocess V mode self ox oy c d = .ok (min d c)) := by
  constructor
  · intro hin
    simp [internal_TPObsDistancePostprocess, hin, hs, hb]
  · intro hout
    simp [internal_TPObsDistancePostprocess, hout, keep_min_eq_min]

/-- One BackAway call for an obstacle point inside the robot shape. -/
theorem back_away_step (V : PTGVirtuals K G)
    (self : CParameterizedTrajectoryGenerator K G) (ox oy c d : K)
    (hin : V.isPointInsideRobotShape self.derived ox oy = true) :
    (c < V.getApproxRobotRadius self.derived →
      internal_TPObsDistancePostprocess V COLL_BEH_BACK_AWAY self ox oy c d = .ok d) ∧
    (V.getApproxRobotRadius self.derived ≤ c →
      internal_TPObsDistancePostprocess V COLL_BEH_BACK_AWAY self ox oy c d = .ok 0) := by
  constructor
  · intro hr
    simp [internal_TPObsDistancePostprocess, hin, hr, COLL_BEH_BACK_AWAY, COLL_BEH_STOP]
  · intro hr
    simp [internal_TPObsDistancePostprocess, hin, not_lt.mpr hr, COLL_BEH_BACK_AWAY,
      COLL_BEH_STOP]

/-- BackAway mode without a blocking obstacle (one inside the robot shape whose
candidate is at least the robot radius): the fold is the running minimum over the
obstacle points outside the robot shape. -/
theorem back_away_fold_unblocked (V : PTGVirtuals K G)
    (self : CParameterizedTrajectoryGenerator K G) (obs : List (TPObstaclePoint K)) :
    ∀ d0 : K,
      (¬ ∃ o ∈ obs, V.isPointInsideRobotShape self.derived o.ox o.oy = true ∧
        V.getApproxRobotRadius self.derived ≤ o.new_tp_obs_dist) →
      foldTPObstacles V COLL_BEH_BACK_AWAY self d0 obs =
        .ok (List.foldl min d0
          ((obs.filter (fun o => !V.isPointInsideRobotShape self.derived o.ox o.oy)).map
            TPObstaclePoint.new_tp_obs_dist)) := by
  induction obs with
  | nil => intro d0 _; rfl
  | cons o rest ih =>
    intro d0 hno
    have hrest : ¬ ∃ p ∈ rest, V.isPointInsideRobotShape self.derived p.ox p.oy = true ∧
        V.getApproxRobotRadius self.derived ≤ p.new_tp_obs_dist := by
      rintro ⟨p, hp, hp'⟩
      exact hno ⟨p, List.mem_cons_of_mem _ hp, hp'⟩
    by_cases hin : V.isPointInsideRobotShape self.derived o.ox o.oy = true
    · have hlt : o.new_tp_obs_dist < V.getApproxRobotRadius self.derived := by
        by_contra hge
        exact hno ⟨o, List.mem_cons_self _ _, hin, not_lt.mp hge⟩
      simp only [foldTPObstacles, internal_TPObsDistancePostprocess, hin, hlt]
      simpa [COLL_BEH_BACK_AWAY, COLL_BEH_STOP, hin] using ih d0 hrest
    · have hout : V.isPointInsideRobotShape self.derived o.ox o.oy = false := by
        simpa using hin
      simp only [foldTPObstacles, internal_TPObsDistancePostprocess, hout, keep_min_eq_min]
      simpa [hout] using ih (min d0 o.new_tp_obs_dist) hrest

/-- BackAway mode with a blocking obstacle somewhere in the list and non-negative
candidates: the fold returns 0. -/
theorem back_away_fold_blocked (V : PTGVirtuals K G)
    (self : CParameterizedTrajectoryGenerator K G) (obs : List (TPObstaclePoint K)) :
    ∀ d0 : K, (∀ o ∈ obs, 0 ≤ o.new_tp_obs_dist) →
      (∃ o ∈ obs, V.isPointInsideRobotShape self.derived o.ox o.oy = true ∧
        V.getApproxRobotRadius self.derived ≤ o.new_tp_obs_dist) →
      foldTPObstacles V COLL_BEH_BACK_AWAY self d0 obs = .ok 0 := by
  induction obs with
  | nil => intro d0 _ h; obtain ⟨o, ho, _⟩ := h; cases ho
  | cons o rest ih =>
    intro d0 hc hblk
    have hrestc : ∀ p ∈ rest, 0 ≤ p.new_tp_obs_dist :=
      fun p hp => hc p (List.mem_cons_of_mem _ hp)
    by_cases hw : V.isPointInsideRobotShape self.derived o.ox o.oy = true ∧
        V.getApproxRobotRadius self.derived ≤ o.new_tp_obs_dist
    · obtain ⟨d', h', h0, h1⟩ := fold_bounds V COLL_BEH_BACK_AWAY (Or.inr rfl) self rest 0
        (le_refl _) hrestc
      have hd' : d' = 0 := le_antisymm h1 h0
      subst hd'
      have hstep := (back_away_step V self o.ox o.oy o.new_tp_obs_dist d0 hw.1).2 hw.2
      simp only [foldTPObstacles, hstep]
      exact h'
    · have hrest : ∃ p ∈ rest, V.isPointInsideRobotShape self.derived p.ox p.oy = true ∧
          V.getApproxRobotRadius self.derived ≤ p.new_tp_obs_dist := by
        obtain ⟨p, hp, hp'⟩ := hblk
        rcases List.mem_cons.mp hp with rfl | hp2
        · exact absurd hp' hw
        · exact ⟨p, hp2, hp'⟩
      by_cases hin : V.isPointInsideRobotShape self.derived o.ox o.oy = true
      · have hlt : o.new_tp_obs_dist < V.getApproxRobotRadius self.derived := by
          by_contra hge
          exact hw ⟨hin, not_lt.mp hge⟩
        have hstep := (back_away_step V self o.ox o.oy o.new_tp_obs_dist d0 hin).1 hlt
        simp only [foldTPObstacles, hstep]
        exact ih d0 hrestc hrest
      · have hout : V.isPointInsideRobotShape self.derived o.ox o.oy = false := by
          simpa using hin
        simp only [foldTPObstacles, internal_TPObsDistancePostprocess, hout]
        simpa using ih _ hrestc hrest

/-- C18. Closed form of the BackAway fold: for every starting free distance and every
list of obstacle points with non-negative candidate distances, the fold returns 0 if
some obstacle point inside the robot shape has a candidate of at least the robot
radius, and otherwise the minimum of the starting value and the candidates of the
points outside the robot shape; so the fold of any permutation of the list returns
the same, also when points inside the robot shape are present. -/
theorem back_away_fold_closed_form (V : PTGVirtuals K G)
    (self : CParameterizedTrajectoryGenerator K G) (d0 : K)
    (obs obs' : List (TPObstaclePoint K))
    (hc : ∀ o ∈ obs, 0 ≤ o.new_tp_obs_dist) (hperm : obs.Perm obs') :
    ((∃ o ∈ obs, V.isPointInsideRobotShape self.derived o.ox o.oy = true ∧
        V.getApproxRobotRadius self.derived ≤ o.new_tp_obs_dist) →
      foldTPObstacles V COLL_BEH_BACK_AWAY self d0 obs = .ok 0) ∧
    ((¬ ∃ o ∈ obs, V.isPointInsideRobotShape self.derived o.ox o.oy = true ∧
        V.getApproxRobotRadius self.derived ≤ o.new_tp_obs_dist) →
      foldTPObstacles V COLL_BEH_BACK_AWAY self d0 obs =
        .ok (List.foldl min d0
          ((obs.filter (fun o => !V.isPointInsideRobotShape self.derived o.ox o.oy)).map
            TPObstaclePoint.new_tp_obs_dist))) ∧
    foldTPObstacles V COLL_BEH_BACK_AWAY self d0 obs'
      = foldTPObstacles V COLL_BEH_BACK_AWAY self d0 obs := by
  refine ⟨back_away_fold_blocked V self obs d0 hc, back_away_fold_unblocked V self obs d0, ?_⟩
  have hc' : ∀ o ∈ obs', 0 ≤ o.new_tp_obs_dist := fun o ho => hc o (hperm.mem_iff.mpr ho)
  by_cases hblk : ∃ o ∈ obs, V.isPointInsideRobotShape self.derived o.ox o.oy = true ∧
      V.getApproxRobotRadius self.derived ≤ o.new_tp_obs_dist
  · have hblk' : ∃ o ∈ obs', V.isPointInsideRobotShape self.derived o.ox o.oy = true ∧
        V.getApproxRobotRadius self.derived ≤ o.new_tp_obs_dist := by
      obtain ⟨o, ho, h⟩ := hblk
      exact ⟨o, hperm.mem_iff.mp ho, h⟩
    rw [back_away_fold_blocked V self obs d0 hc hblk,
      back_away_fold_blocked V self obs' d0 hc' hblk']
  · have hblk' : ¬ ∃ o ∈ obs', V.isPointInsideRobotShape self.derived o.ox o.oy = true ∧
        V.getApproxRobotRadius self.derived ≤ o.new_tp_obs_dist := by
      rintro ⟨o, ho, h⟩
      exact hblk ⟨o, hperm.mem_iff.mpr ho, h⟩
    rw [back_away_fold_unblocked V self obs d0 hblk,
      back_away_fold_unblocked V self obs' d0 hblk',
      foldl_min_perm ((hperm.filter _).map _) d0]

/-! ## Theorems: no-obstacle baseline -/

theorem vector_resize_length (v : List K) (n : Nat) : (vector_resize v n).length = n := by
  simp only [vector_resize, List.length_append, List.length_take, List.length_replicate]
  omega

theorem initTPObstacles_loop_length (V : PTGVirtuals K G)
    (self : CParameterizedTrajectoryGenerator K G) :
    ∀ (fuel k : Nat) (l : List K), (initTPObstacles_loop V self fuel k l).length = l.length := by
  intro fuel
  induction fuel with
  | zero => intro k l; rfl
  | succ fuel ih => intro k l; simp [initTPObstacles_loop, ih]

/-- The loop overwrites exactly the entries `k, …, k + fuel - 1`. -/
theorem initTPObstacles_loop_getElem? (V : PTGVirtuals K G)
    (self : CParameterizedTrajectoryGenerator K G) :
    ∀ (fuel k : Nat) (l : List K) (i : Nat), i < l.length →
      (initTPObstacles_loop V self fuel k l)[i]? =
        if k ≤ i ∧ i < k + fuel then some (initTPObstacleSingle V self (i % 2 ^ 16))
        else l[i]? := by
  intro fuel
  induction fuel with
  | zero =>
    intro k l i _
    have : ¬ (k ≤ i ∧ i < k + 0) := by omega
    rw [initTPObstacles_loop, if_neg this]
  | succ fuel ih =>
    intro k l i hi
    rw [initTPObstacles_loop, ih (k + 1) _ i (by simpa using hi)]
    by_cases hik : i = k
    · subst hik
      have h1 : ¬ (i + 1 ≤ i ∧ i < i + 1 + fuel) := by omega
      have h2 : i ≤ i ∧ i < i + (fuel + 1) := by omega
      simp [h1, h2, List.getElem?_set, hi]
    · by_cases hc : k + 1 ≤ i ∧ i < k + 1 + fuel
      · have h2 : k ≤ i ∧ i < k + (fuel + 1) := by omega
        rw [if_pos hc, if_pos h2]
      · have h2 : ¬ (k ≤ i ∧ i < k + (fuel + 1)) := by omega
        rw [if_neg hc, if_neg h2, List.getElem?_set]
        simp [Ne.symm hik]

/-- C4. No-obstacle baseline: `initTPObstacles` leaves a vector of length exactly
`pathCount` whose entry `k`, for every `k` below `pathCount`, is
`min(refDistance, getPathDist(k, getPathStepCount(k) - 1))`, whatever the vector held
before; and folding an empty obstacle sequence leaves that entry as it is. The path
count is within the range of the 16-bit path index. -/
theorem initTPObstacles_baseline (V : PTGVirtuals K G)
    (self : CParameterizedTrajectoryGenerator K G) (TP_Obstacles : List K)
    (hN : self.m_alphaValuesCount ≤ 2 ^ 16) :
    (initTPObstacles V self TP_Obstacles).length = self.m_alphaValuesCount ∧
    ∀ k, k < self.m_alphaValuesCount →
      (initTPObstacles V self TP_Obstacles)[k]? =
        some (min self.refDistance
          (V.getPathDist self.derived k (size_t_pred (V.getPathStepCount self.derived k)))) ∧
      ∀ mode, foldTPObstacles V mode self
          (min self.refDistance
            (V.getPathDist self.derived k (size_t_pred (V.getPathStepCount self.derived k))))
          [] =
        .ok (min self.refDistance
          (V.getPathDist self.derived k (size_t_pred (V.getPathStepCount self.derived k)))) := by
  refine ⟨?_, fun k hk => ⟨?_, fun _ => rfl⟩⟩
  · simp [initTPObstacles, initTPObstacles_loop_length, vector_resize_length]
  · have hlen : k < (vector_resize TP_Obstacles self.m_alphaValuesCount).length := by
      rw [vector_resize_length]; exact hk
    have hmod : k % 2 ^ 16 = k := Nat.mod_eq_of_lt (by omega)
    have hcond : 0 ≤ k ∧ k < 0 + self.m_alphaValuesCount := by omega
    rw [initTPObstacles, initTPObstacles_loop_getElem? V self _ 0 _ k hlen, if_pos hcond,
      hmod, initTPObstacleSingle, std_min_eq_min]

/-! ## Theorems: rendering -/

/-- The argument of the rounding is monotone in the angle. -/
theorem alpha2index_arg_mono (M_PI : K) (hpi : 0 < M_PI) (N : Nat) {a1 a2 : K}
    (h : a1 ≤ a2) :
    1 / 2 * ((N : K) * (1 + a1 / M_PI) - 1) ≤ 1 / 2 * ((N : K) * (1 + a2 / M_PI) - 1) := by
  have hN : (0 : K) ≤ N := Nat.cast_nonneg N
  have hdiv : a1 / M_PI ≤ a2 / M_PI := div_le_div_of_nonneg_right h hpi.le
  have hmul : (N : K) * (1 + a1 / M_PI) ≤ (N : K) * (1 + a2 / M_PI) :=
    mul_le_mul_of_nonneg_left (by linarith) hN
  linarith

section Floor
variable [FloorRing K]

/-- Under each tie-breaking rule `utils_round` returns an integer at distance at
most 1/2 from its argument. -/
theorem utils_round_nearest (rule : RoundRule) (x : K) :
    x - 1 / 2 ≤ (utils_round rule x : K) ∧ (utils_round rule x : K) ≤ x + 1 / 2 := by
  have hf : ((⌊x⌋ : Int) : K) ≤ x := Int.floor_le x
  have hlt : x < ((⌊x⌋ : Int) : K) + 1 := Int.lt_floor_add_one x
  unfold utils_round
  cases rule <;> simp only <;> split_ifs <;> push_cast <;> constructor <;> linarith

/-- The integer within less than 1/2 of `x` is the rounded value. -/
theorem utils_round_eq_of_lt (rule : RoundRule) (x : K) (n : Int)
    (h1 : (n : K) - 1 / 2 < x) (h2 : x < (n : K) + 1 / 2) : utils_round rule x = n := by
  obtain ⟨ha, hb⟩ := utils_round_nearest rule x
  have hlo : (n : K) - 1 < (utils_round rule x : K) := by linarith
  have hhi : (utils_round rule x : K) < (n : K) + 1 := by linarith
  have hlo' : n - 1 < utils_round rule x := by exact_mod_cast hlo
  have hhi' : utils_round rule x < n + 1 := by exact_mod_cast hhi
  omega

/-- Rounding to nearest is monotone, whatever the rule at ties. -/
theorem utils_round_mono (rule : RoundRule) {x y : K} (hxy : x ≤ y) :
    utils_round rule x ≤ utils_round rule y := by
  by_contra hcon
  have hlt : utils_round rule y + 1 ≤ utils_round rule x := by omega
  have hltK : (utils_round rule y : K) + 1 ≤ (utils_round rule x : K) := by exact_mod_cast hlt
  obtain ⟨_, hx⟩ := utils_round_nearest rule x
  obtain ⟨hy, _⟩ := utils_round_nearest rule y
  have hyx : y ≤ x := by linarith
  have hEq : x = y := le_antisymm hxy hyx
  subst hEq
  omega

/-- On `[-π, π)` the wrap is the identity. -/
theorem wrapToPi_of_mem (M_PI a : K) (hpi : 0 < M_PI) (h1 : -M_PI ≤ a) (h2 : a < M_PI) :
    wrapToPi M_PI a = a := by
  have h2pi : (0 : K) < 2 * M_PI := by linarith
  have hfloor : ⌊(a + M_PI) / (2 * M_PI)⌋ = 0 := by
    rw [Int.floor_eq_zero_iff]
    constructor
    · exact div_nonneg (by linarith) h2pi.le
    · rw [div_lt_iff₀ h2pi]; linarith
  simp [wrapToPi, hfloor]

/-- The wrap lands in `[-π, π)`. -/
theorem wrapToPi_mem (M_PI a : K) (hpi : 0 < M_PI) :
    -M_PI ≤ wrapToPi M_PI a ∧ wrapToPi M_PI a < M_PI := by
  have h2pi : (0 : K) < 2 * M_PI := by linarith
  have hlo := Int.floor_le ((a + M_PI) / (2 * M_PI))
  have hhi := Int.lt_floor_add_one ((a + M_PI) / (2 * M_PI))
  rw [le_div_iff₀ h2pi] at hlo
  rw [div_lt_iff₀ h2pi] at hhi
  unfold wrapToPi
  constructor <;> linarith

/-- With a path count within `1 … 2 ^ 16` and a rounded value that fits an `int`, the
two `if`s clamp the rounded value into `[0, pathCount - 1]` and the conversion to
`uint16_t` changes nothing. The angle is used as it came in. -/
theorem alpha2index_eq_clamp_of_int (M_PI : K) (rule : RoundRule)
    (self : CParameterizedTrajectoryGenerator K G) (alpha : K)
    (hN1 : 1 ≤ self.m_alphaValuesCount) (hN : self.m_alphaValuesCount ≤ 2 ^ 16)
    (hlo : -2 ^ 31 ≤ utils_round rule (1 / 2 * ((self.m_alphaValuesCount : K) *
      (1 + alpha / M_PI) - 1)))
    (hhi : utils_round rule (1 / 2 * ((self.m_alphaValuesCount : K) *
      (1 + alpha / M_PI) - 1)) < 2 ^ 31) :
    alpha2index M_PI rule self alpha =
      (max 0 (min ((self.m_alphaValuesCount : Int) - 1)
        (utils_round rule (1 / 2 * ((self.m_alphaValuesCount : K) *
          (1 + alpha / M_PI) - 1))))).toNat := by
  unfold alpha2index to_int32
  simp only
  generalize utils_round rule (1 / 2 * ((self.m_alphaValuesCount : K) *
          (1 + alpha / M_PI) - 1)) = k at hlo hhi
  generalize self.m_alphaValuesCount = N at hN1 hN
  split_ifs <;> omega

/-- The result is below the path count for every angle, wrapped or not. -/
theorem alpha2index_lt_count (M_PI : K) (rule : RoundRule)
    (self : CParameterizedTrajectoryGenerator K G) (alpha : K)
    (hN1 : 1 ≤ self.m_alphaValuesCount) (hN : self.m_alphaValuesCount ≤ 2 ^ 16) :
    alpha2index M_PI rule self alpha ≤ self.m_alphaValuesCount - 1 := by
  unfold alpha2index
  simp only
  generalize to_int32 (utils_round rule (1 / 2 * ((self.m_alphaValuesCount : K) *
          (1 + alpha / M_PI) - 1))) = k
  generalize self.m_alphaValuesCount = N at hN1 hN
  split_ifs <;> omega

/-- For an angle in `[-π, π)` the rounded value lies between `-1` and the path count,
so it fits an `int`, and the result is the rounded value clamped into
`[0, pathCount - 1]`. -/
theorem alpha2index_eq_clamp (M_PI : K) (hpi : 0 < M_PI) (rule : RoundRule)
    (self : CParameterizedTrajectoryGenerator K G) (alpha : K)
    (hN1 : 1 ≤ self.m_alphaValuesCount) (hN : self.m_alphaValuesCount ≤ 2 ^ 16)
    (h1 : -M_PI ≤ alpha) (h2 : alpha < M_PI) :
    alpha2index M_PI rule self alpha =
      (max 0 (min ((self.m_alphaValuesCount : Int) - 1)
        (utils_round rule (1 / 2 * ((self.m_alphaValuesCount : K) *
          (1 + alpha / M_PI) - 1))))).toNat := by
  have hNK : (0 : K) ≤ self.m_alphaValuesCount := Nat.cast_nonneg _
  have hNK' : (self.m_alphaValuesCount : K) ≤ 2 ^ 16 := by exact_mod_cast hN
  have hd1 : -1 ≤ alpha / M_PI := by
    rw [le_div_iff₀ hpi]; linarith
  have hd2 : alpha / M_PI < 1 := (div_lt_one hpi).mpr h2
  have hm1 : 0 ≤ (self.m_alphaValuesCount : K) * (1 + alpha / M_PI) :=
    mul_nonneg hNK (by linarith)
  have hm2 : (self.m_alphaValuesCount : K) * (1 + alpha / M_PI)
      ≤ (self.m_alphaValuesCount : K) * 2 :=
    mul_le_mul_of_nonneg_left (by linarith) hNK
  obtain ⟨ha, hb⟩ := utils_round_nearest rule
    (1 / 2 * ((self.m_alphaValuesCount : K) * (1 + alpha / M_PI) - 1))
  have hlo : ((-2 : Int) : K) < (utils_round rule
      (1 / 2 * ((self.m_alphaValuesCount : K) * (1 + alpha / M_PI) - 1)) : K) := by
    push_cast; linarith
  have hhi : (utils_round rule
      (1 / 2 * ((self.m_alphaValuesCount : K) * (1 + alpha / M_PI) - 1)) : K)
      < ((2 ^ 16 + 1 : Int) : K) := by
    push_cast; linarith
  have hlo' : (-2 : Int) < utils_round rule
      (1 / 2 * ((self.m_alphaValuesCount : K) * (1 + alpha / M_PI) - 1)) := by
    exact_mod_cast hlo
  have hhi' : utils_round rule
      (1 / 2 * ((self.m_alphaValuesCount : K) * (1 + alpha / M_PI) - 1))
      < (2 ^ 16 + 1 : Int) := by
    exact_mod_cast hhi
  exact alpha2index_eq_clamp_of_int M_PI rule self alpha hN1 hN (by omega) (by omega)

/-- Angles in the lowest slot `[-π, -π + π/N]` map to index 0. -/
theorem alpha2index_low (M_PI : K) (hpi : 0 < M_PI) (rule : RoundRule)
    (self : CParameterizedTrajectoryGenerator K G) (alpha : K)
    (hN1 : 1 ≤ self.m_alphaValuesCount) (hN : self.m_alphaValuesCount ≤ 2 ^ 16)
    (h1 : -M_PI ≤ alpha) (h2 : alpha ≤ -M_PI + M_PI / (self.m_alphaValuesCount : K)) :
    alpha2index M_PI rule self alpha = 0 := by
  have hNpos : (0 : K) < self.m_alphaValuesCount := by exact_mod_cast hN1
  have hN1K : (1 : K) ≤ self.m_alphaValuesCount := by exact_mod_cast hN1
  have hslot : M_PI / (self.m_alphaValuesCount : K) ≤ M_PI := div_le_self hpi.le hN1K
  have hlt : alpha < M_PI := by linarith
  rw [alpha2index_eq_clamp M_PI hpi rule self alpha hN1 hN h1 hlt]
  have harg : 1 / 2 * ((self.m_alphaValuesCount : K) * (1 + alpha / M_PI) - 1) ≤ 0 := by
    have hmono := alpha2index_arg_mono M_PI hpi self.m_alphaValuesCount h2
    have hval : 1 / 2 * ((self.m_alphaValuesCount : K) *
        (1 + (-M_PI + M_PI / (self.m_alphaValuesCount : K)) / M_PI) - 1) = 0 := by
      field_simp
      ring
    linarith
  obtain ⟨_, hb⟩ := utils_round_nearest rule
    (1 / 2 * ((self.m_alphaValuesCount : K) * (1 + alpha / M_PI) - 1))
  have hk : (utils_round rule
      (1 / 2 * ((self.m_alphaValuesCount : K) * (1 + alpha / M_PI) - 1)) : K) < 1 := by
    linarith
  have hk' : utils_round rule
      (1 / 2 * ((self.m_alphaValuesCount : K) * (1 + alpha / M_PI) - 1)) < 1 := by
    exact_mod_cast hk
  omega

/-- Angles in the highest slot `[π - π/N, π)` map to index `N - 1`. -/
theorem alpha2index_high (M_PI : K) (hpi : 0 < M_PI) (rule : RoundRule)
    (self : CParameterizedTrajectoryGenerator K G) (alpha : K)
    (hN1 : 1 ≤ self.m_alphaValuesCount) (hN : self.m_alphaValuesCount ≤ 2 ^ 16)
    (h1 : M_PI - M_PI / (self.m_alphaValuesCount : K) ≤ alpha) (h2 : alpha < M_PI) :
    alpha2index M_PI rule self alpha = self.m_alphaValuesCount - 1 := by
  have hNpos : (0 : K) < self.m_alphaValuesCount := by exact_mod_cast hN1
  have hN1K : (1 : K) ≤ self.m_alphaValuesCount := by exact_mod_cast hN1
  have hslot : M_PI / (self.m_alphaValuesCount : K) ≤ M_PI := div_le_self hpi.le hN1K
  have hge : -M_PI ≤ alpha := by linarith
  rw [alpha2index_eq_clamp M_PI hpi rule self alpha hN1 hN hge h2]
  have hlo : ((self.m_alphaValuesCount : K) - 1) ≤
      1 / 2 * ((self.m_alphaValuesCount : K) * (1 + alpha / M_PI) - 1) := by
    have hmono := alpha2index_arg_mono M_PI hpi self.m_alphaValuesCount h1
    have hval : 1 / 2 * ((self.m_alphaValuesCount : K) *
        (1 + (M_PI - M_PI / (self.m_alphaValuesCount : K)) / M_PI) - 1) =
        (self.m_alphaValuesCount : K) - 1 := by
      field_simp
      ring
    linarith
  have hhi : 1 / 2 * ((self.m_alphaValuesCount : K) * (1 + alpha / M_PI) - 1) <
      (self.m_alphaValuesCount : K) - 1 / 2 := by
    have hdiv : alpha / M_PI < 1 := (div_lt_one hpi).mpr h2
    have hmul : (self.m_alphaValuesCount : K) * (alpha / M_PI) <
        (self.m_alphaValuesCount : K) * 1 := mul_lt_mul_of_pos_left hdiv hNpos
    linarith
  have hk := utils_round_eq_of_lt rule
    (1 / 2 * ((self.m_alphaValuesCount : K) * (1 + alpha / M_PI) - 1))
    ((self.m_alphaValuesCount : Int) - 1) (by push_cast; linarith) (by push_cast; linarith)
  rw [hk]
  omega

/-- C5 (the code departs from the claim). With the default path count 121 and the angle
`7/2`, which lies outside `[-π, π)` (`π` taken as `355/113`), the wrapped angle is
`7/2 - 2π = -629/226` and the claim's formula, applied to it, gives the index 6; but
`alpha2index` drops the angle returned by `wrapToPi`, rounds `127.4` to 127 and clamps
it to 120. This holds under every tie rule of the rounding. -/
theorem alpha2index_drops_wrap (rule : RoundRule) :
    wrapToPi (355 / 113 : ℚ) (7 / 2) = -629 / 226 ∧
    specAlphaToIndex (355 / 113 : ℚ) rule 121 (7 / 2) = 6 ∧
    alpha2index (355 / 113 : ℚ) rule defaultPTG (7 / 2) = 120 := by
  have hfloor : ⌊((7 / 2 : ℚ) + 355 / 113) / (2 * (355 / 113))⌋ = 1 := by
    rw [Int.floor_eq_iff]
    constructor <;> norm_num
  have hwrap : wrapToPi (355 / 113 : ℚ) (7 / 2) = -629 / 226 := by
    unfold wrapToPi
    rw [hfloor]
    norm_num
  have hN : defaultPTG.m_alphaValuesCount = 121 := rfl
  refine ⟨hwrap, ?_, ?_⟩
  · have hr : utils_round rule
        (1 / 2 * (((121 : Nat) : ℚ) *
          (1 + wrapToPi (355 / 113 : ℚ) (7 / 2) / (355 / 113)) - 1)) = 6 :=
      utils_round_eq_of_lt rule _ 6 (by rw [hwrap]; norm_num) (by rw [hwrap]; norm_num)
    unfold specAlphaToIndex
    rw [hr]
    decide
  · have hr : utils_round rule
        (1 / 2 * ((defaultPTG.m_alphaValuesCount : ℚ) * (1 + (7 / 2) / (355 / 113)) - 1))
        = 127 :=
      utils_round_eq_of_lt rule _ 127 (by rw [hN]; norm_num) (by rw [hN]; norm_num)
    rw [alpha2index_eq_clamp_of_int (355 / 113 : ℚ) rule defaultPTG (7 / 2) (by decide)
      (by decide) (by rw [hr]; decide) (by rw [hr]; decide), hr, hN]
    decide

/-- C6. Monotonicity: for a path count `N` with `1 ≤ N` (within the 16-bit range of
the result type) and angles `a1 ≤ a2`, both in `[-π, π)`,
`alpha2index(a1) ≤ alpha2index(a2)`. -/
theorem alpha2index_monotone (M_PI : K) (hpi : 0 < M_PI) (rule : RoundRule)
    (self : CParameterizedTrajectoryGenerator K G) (a1 a2 : K)
    (hN1 : 1 ≤ self.m_alphaValuesCount) (hN : self.m_alphaValuesCount ≤ 2 ^ 16)
    (h1 : -M_PI ≤ a1) (h12 : a1 ≤ a2) (h2 : a2 < M_PI) :
    alpha2index M_PI rule self a1 ≤ alpha2index M_PI rule self a2 := by
  rw [alpha2index_eq_clamp M_PI hpi rule self a1 hN1 hN h1 (lt_of_le_of_lt h12 h2),
    alpha2index_eq_clamp M_PI hpi rule self a2 hN1 hN (le_trans h1 h12) h2]
  have hk := utils_round_mono rule
    (alpha2index_arg_mono M_PI hpi self.m_alphaValuesCount h12)
  omega

/-- C7. Endpoints: for a path count `N` with `1 ≤ N` (within the 16-bit range of the
result type), `alpha2index(-π) = 0`, `alpha2index(alpha) = N - 1` for every `alpha` in
`[π - π/N, π)`, and for every `ε` with `0 < ε ≤ π/N`, `alpha2index(-π + ε) = 0` and
`alpha2index(π - ε) = N - 1`; with the default parameters (`N = 121`) and
`0 < ε ≤ π/121`, `alpha2index(-π + ε) = 0` and `alpha2index(π - ε) = 120`. -/
theorem alpha2index_endpoints (M_PI : K) (hpi : 0 < M_PI) (rule : RoundRule) :
    (∀ self : CParameterizedTrajectoryGenerator K G,
      1 ≤ self.m_alphaValuesCount → self.m_alphaValuesCount ≤ 2 ^ 16 →
        alpha2index M_PI rule self (-M_PI) = 0 ∧
        (∀ alpha, M_PI - M_PI / (self.m_alphaValuesCount : K) ≤ alpha → alpha < M_PI →
          alpha2index M_PI rule self alpha = self.m_alphaValuesCount - 1) ∧
        (∀ ε, 0 < ε → ε ≤ M_PI / (self.m_alphaValuesCount : K) →
          alpha2index M_PI rule self (-M_PI + ε) = 0 ∧
          alpha2index M_PI rule self (M_PI - ε) = self.m_alphaValuesCount - 1)) ∧
    (∀ (self : CParameterizedTrajectoryGenerator K G) (ε : K), 0 < ε → ε ≤ M_PI / 121 →
      alpha2index M_PI rule (loadDefaultParams self) (-M_PI + ε) = 0 ∧
      alpha2index M_PI rule (loadDefaultParams self) (M_PI - ε) = 120) := by
  have key : ∀ self : CParameterizedTrajectoryGenerator K G,
      1 ≤ self.m_alphaValuesCount → self.m_alphaValuesCount ≤ 2 ^ 16 →
      ∀ ε, 0 ≤ ε → ε ≤ M_PI / (self.m_alphaValuesCount : K) →
        alpha2index M_PI rule self (-M_PI + ε) = 0 ∧
        (0 < ε → alpha2index M_PI rule self (M_PI - ε) = self.m_alphaValuesCount - 1) := by
    intro self hN1 hN ε h0 hε
    refine ⟨alpha2index_low M_PI hpi rule self _ hN1 hN (by linarith) (by linarith), ?_⟩
    intro hpos
    exact alpha2index_high M_PI hpi rule self _ hN1 hN (by linarith) (by linarith)
  constructor
  · intro self hN1 hN
    have hNpos : (0 : K) < self.m_alphaValuesCount := by exact_mod_cast hN1
    refine ⟨?_, fun alpha h1 h2 => alpha2index_high M_PI hpi rule self alpha hN1 hN h1 h2, ?_⟩
    · have h := (key self hN1 hN 0 (le_refl _) (div_nonneg hpi.le hNpos.le)).1
      simpa using h
    · intro ε h0 hε
      exact ⟨(key self hN1 hN ε h0.le hε).1, (key self hN1 hN ε h0.le hε).2 h0⟩
  · intro self ε h0 hε
    have h := key (loadDefaultParams self) (by simp [loadDefaultParams])
      (by simp [loadDefaultParams]) ε h0.le (by simpa [loadDefaultParams] using hε)
    exact ⟨h.1, by simpa [loadDefaultParams] using h.2 h0⟩

/-- C8. Middle path: for every odd path count `N` (within the 16-bit range of the
result type) `alpha2index(0) = (N - 1) / 2`; with the parameters of
`loadDefaultParams` (`N = 121`, `refDistance = 6.0`) `alpha2index(0.0) = 60`. -/
theorem alpha2index_zero_middle (M_PI : K) (hpi : 0 < M_PI) (rule : RoundRule) :
    (∀ self : CParameterizedTrajectoryGenerator K G,
      self.m_alphaValuesCount % 2 = 1 → self.m_alphaValuesCount ≤ 2 ^ 16 →
        alpha2index M_PI rule self 0 = (self.m_alphaValuesCount - 1) / 2) ∧
    (∀ self : CParameterizedTrajectoryGenerator K G,
      (loadDefaultParams self).m_alphaValuesCount = 121 ∧
      (loadDefaultParams self).refDistance = 6 ∧
      alpha2index M_PI rule (loadDefaultParams self) 0 = 60) := by
  have key : ∀ self : CParameterizedTrajectoryGenerator K G,
      self.m_alphaValuesCount % 2 = 1 → self.m_alphaValuesCount ≤ 2 ^ 16 →
        alpha2index M_PI rule self 0 = (self.m_alphaValuesCount - 1) / 2 := by
    intro self hodd hN
    have hN1 : 1 ≤ self.m_alphaValuesCount := by omega
    rw [alpha2index_eq_clamp M_PI hpi rule self 0 hN1 hN (by linarith) hpi]
    obtain ⟨m, hm⟩ : ∃ m : Nat, self.m_alphaValuesCount = 2 * m + 1 :=
      ⟨self.m_alphaValuesCount / 2, by omega⟩
    have harg : 1 / 2 * ((self.m_alphaValuesCount : K) * (1 + 0 / M_PI) - 1) = ((m : Int) : K) := by
      rw [hm]; push_cast; ring
    have hk := utils_round_eq_of_lt rule
      (1 / 2 * ((self.m_alphaValuesCount : K) * (1 + 0 / M_PI) - 1)) (m : Int)
      (by rw [harg]; linarith) (by rw [harg]; linarith)
    rw [hk]
    omega
  refine ⟨key, fun self => ⟨rfl, rfl, ?_⟩⟩
  have h := key (loadDefaultParams self) (by simp [loadDefaultParams])
    (by simp [loadDefaultParams])
  simpa [loadDefaultParams] using h

/-- C19. Every index is reached at its slot centre: for a path count `N` with `1 ≤ N`
(within the 16-bit range of the result type) and every `k < N`, the angle
`π (-1 + (2k + 1)/N)` lies in `[-π, π)` and `alpha2index` maps it to `k`; so
`alpha2index` on `[-π, π)` is onto `[0, N - 1]` and a left inverse of the slot-centre
map `index2alpha`. -/
theorem alpha2index_index2alpha (M_PI : K) (hpi : 0 < M_PI) (rule : RoundRule)
    (self : CParameterizedTrajectoryGenerator K G)
    (hN : self.m_alphaValuesCount ≤ 2 ^ 16) (k : Nat) (hk : k < self.m_alphaValuesCount) :
    index2alpha M_PI self k
      = M_PI * (-1 + (2 * (k : K) + 1) / (self.m_alphaValuesCount : K)) ∧
    (-M_PI ≤ index2alpha M_PI self k ∧ index2alpha M_PI self k < M_PI) ∧
    alpha2index M_PI rule self (index2alpha M_PI self k) = k ∧
    ∃ alpha, -M_PI ≤ alpha ∧ alpha < M_PI ∧ alpha2index M_PI rule self alpha = k := by
  have hN1 : 1 ≤ self.m_alphaValuesCount := by omega
  have hNpos : (0 : K) < self.m_alphaValuesCount := by exact_mod_cast hN1
  have hkN : (2 * (k : K) + 1) + 1 ≤ 2 * (self.m_alphaValuesCount : K) := by
    have : 2 * k + 1 + 1 ≤ 2 * self.m_alphaValuesCount := by omega
    exact_mod_cast this
  have hk0 : (0 : K) ≤ k := Nat.cast_nonneg k
  have hfrac_pos : 0 < (2 * (k : K) + 1) / (self.m_alphaValuesCount : K) :=
    div_pos (by linarith) hNpos
  have hfrac_lt : (2 * (k : K) + 1) / (self.m_alphaValuesCount : K) < 2 := by
    rw [div_lt_iff₀ hNpos]; linarith
  have hlo : -M_PI ≤ index2alpha M_PI self k := by
    unfold index2alpha
    nlinarith [mul_pos hpi hfrac_pos]
  have hhi : index2alpha M_PI self k < M_PI := by
    unfold index2alpha
    nlinarith [mul_pos hpi (sub_pos.mpr hfrac_lt)]
  have harg : 1 / 2 * ((self.m_alphaValuesCount : K) *
      (1 + index2alpha M_PI self k / M_PI) - 1) = ((k : Int) : K) := by
    unfold index2alpha
    push_cast
    field_simp
    ring
  have hidx : alpha2index M_PI rule self (index2alpha M_PI self k) = k := by
    rw [alpha2index_eq_clamp M_PI hpi rule self _ hN1 hN hlo hhi]
    have hr := utils_round_eq_of_lt rule
      (1 / 2 * ((self.m_alphaValuesCount : K) * (1 + index2alpha M_PI self k / M_PI) - 1))
      (k : Int) (by rw [harg]; linarith) (by rw [harg]; linarith)
    rw [hr]
    omega
  exact ⟨rfl, ⟨hlo, hhi⟩, hidx, index2alpha M_PI self k, hlo, hhi, hidx⟩

end Floor

end ArithmeticTheorems

section CodecTheorems
variable {K : Type}

/-! ## Theorems: serialization -/

theorem toBytesLE_length : ∀ (n v : Nat), (toBytesLE n v).length = n := by
  intro n
  induction n with
  | zero => intro v; rfl
  | succ n ih => intro v; simp [toBytesLE, ih]

theorem fromBytesLE_toBytesLE : ∀ (n v : Nat), fromBytesLE (toBytesLE n v) = v % 256 ^ n := by
  intro n
  induction n with
  | zero => intro v; simp [toBytesLE, fromBytesLE, Nat.mod_one]
  | succ n ih =>
    intro v
    have hval : ((Fin.ofNat (v % 256) : Byte) : Nat) = v % 256 % 256 := rfl
    simp only [toBytesLE, fromBytesLE, ih, hval]
    rw [Nat.mod_mod, pow_succ', Nat.mod_mul]

/-- Reading back an `n`-byte value that was just written returns it (reduced to `n`
bytes) and leaves what follows it. -/
theorem CStream_read_toBytesLE (n v : Nat) (rest : List Byte) :
    CStream_read n (toBytesLE n v ++ rest) = (.ok (v % 256 ^ n), rest) := by
  have hlen := toBytesLE_length n v
  have hnot : ¬ ((toBytesLE n v ++ rest).length < n) := by
    rw [List.length_append, hlen]; omega
  rw [CStream_read, if_neg hnot, List.take_left' hlen, List.drop_left' hlen,
    fromBytesLE_toBytesLE]

/-- The fields `deinitialize` leaves alone. -/
theorem deinitialize_params {D : Type} (V : PTGVirtuals K G)
    (self : CParameterizedTrajectoryGenerator D G) :
    ( deinitialize V self).refDistance = self.refDistance ∧
    ( deinitialize V self).m_alphaValuesCount = self.m_alphaValuesCount ∧
    ( deinitialize V self).m_score_priority = self.m_score_priority := by
  unfold deinitialize
  split_ifs <;> exact ⟨rfl, rfl, rfl⟩

/-- C9. Round trip: for every generator `p` whose `double` members are 64-bit patterns
and whose path count fits its member, and every reading generator in any state,
`internal_readFromStream` applied to what `internal_writeToStream` wrote for `p`
returns normally, leaves the reader with exactly the three parameters of `p`, and
leaves the bytes that followed. -/
theorem serialization_round_trip (sizeof_count : Nat) (V : PTGVirtuals K G)
    (p reader : CParameterizedTrajectoryGenerator Nat G) (rest : List Byte)
    (h1 : p.refDistance < 2 ^ 64) (h2 : p.m_alphaValuesCount < 256 ^ sizeof_count)
    (h3 : p.m_score_priority < 2 ^ 64) :
    (internal_readFromStream sizeof_count V reader
      (internal_writeToStream sizeof_count p [] ++ rest)).result = .ok () ∧
    (internal_readFromStream sizeof_count V reader
      (internal_writeToStream sizeof_count p [] ++ rest)).self.m_alphaValuesCount
        = p.m_alphaValuesCount ∧
    (internal_readFromStream sizeof_count V reader
      (internal_writeToStream sizeof_count p [] ++ rest)).self.refDistance
        = p.refDistance ∧
    (internal_readFromStream sizeof_count V reader
      (internal_writeToStream sizeof_count p [] ++ rest)).self.m_score_priority
        = p.m_score_priority ∧
    (internal_readFromStream sizeof_count V reader
      (internal_writeToStream sizeof_count p [] ++ rest)).rest = rest := by
  have hw : internal_writeToStream sizeof_count p [] ++ rest =
      toBytesLE 1 0 ++ (toBytesLE sizeof_double p.refDistance ++
        (toBytesLE sizeof_count p.m_alphaValuesCount ++
          (toBytesLE sizeof_double p.m_score_priority ++ rest))) := by
    simp [internal_writeToStream, CStream_write, List.append_assoc]
  have e1 : p.refDistance % 256 ^ sizeof_double = p.refDistance :=
    Nat.mod_eq_of_lt (by simpa [sizeof_double] using h1)
  have e2 : p.m_alphaValuesCount % 256 ^ sizeof_count = p.m_alphaValuesCount :=
    Nat.mod_eq_of_lt h2
  have e3 : p.m_score_priority % 256 ^ sizeof_double = p.m_score_priority :=
    Nat.mod_eq_of_lt (by simpa [sizeof_double] using h3)
  rw [hw]
  simp only [internal_readFromStream, CStream_read_toBytesLE, e1, e2, e3]
  simp

/-- Reading the version byte of a non-empty stream. -/
theorem CStream_read_version (b : Byte) (rest : List Byte) :
    CStream_read 1 (b :: rest) = (.ok b.val, rest) := by
  simp [CStream_read, fromBytesLE]

/-- A read either runs out of input or returns a value and the rest of the stream. -/
theorem CStream_read_cases (n : Nat) (s : List Byte) :
    CStream_read n s = (.error .endOfStream, []) ∨
    ∃ v r, CStream_read n s = (.ok v, r) := by
  unfold CStream_read
  split_ifs
  · exact Or.inl rfl
  · exact Or.inr ⟨_, _, rfl⟩

/-- With version byte 0 the call returns normally or runs out of input; it never
reports an unknown version. -/
theorem readFromStream_version_zero (sizeof_count : Nat) (V : PTGVirtuals K G)
    (self : CParameterizedTrajectoryGenerator Nat G) (rest : List Byte) :
    (internal_readFromStream sizeof_count V self ((0 : Byte) :: rest)).result = .ok () ∨
    (internal_readFromStream sizeof_count V self ((0 : Byte) :: rest)).result
      = .error .endOfStream := by
  have h0 : ((0 : Byte) : Nat) = 0 := rfl
  simp only [internal_readFromStream, CStream_read_version, h0, if_true]
  rcases CStream_read_cases sizeof_double rest with h | ⟨v, r, h⟩
  · rw [h]; exact Or.inr rfl
  · rw [h]
    rcases CStream_read_cases sizeof_count r with h | ⟨v, r, h⟩
    · simp [h]
    · simp only [h]
      rcases CStream_read_cases sizeof_double r with h | ⟨v, r, h⟩
      · simp [h]
      · simp [h]

/-- With a non-zero version byte the call throws the unknown-version exception right
after reading that byte: the rest of the stream is untouched and the object is the
one `deinitialize` left. -/
theorem readFromStream_bad_version (sizeof_count : Nat) (V : PTGVirtuals K G)
    (self : CParameterizedTrajectoryGenerator Nat G) (b : Byte) (rest : List Byte)
    (hb : b ≠ 0) :
    internal_readFromStream sizeof_count V self (b :: rest) =
      ⟨.error (.unknownSerializationVersion b.val), deinitialize V self, rest⟩ := by
  have hv : ¬ (b.val = 0) := fun h => hb (Fin.ext h)
  simp only [internal_readFromStream, CStream_read_version, if_neg hv]

/-- C10. Unsupported version: `internal_readFromStream` throws the
unknown-serialization-version exception if and only if the input has a first byte and
that byte is not 0; in that case the exception carries that byte, no byte after it is
consumed, and `refDistance`, `m_alphaValuesCount` and `m_score_priority` keep the
values they had before the call. -/
theorem unknown_version_iff (sizeof_count : Nat) (V : PTGVirtuals K G)
    (self : CParameterizedTrajectoryGenerator Nat G) (in_ : List Byte) :
    ((∃ v, (internal_readFromStream sizeof_count V self in_).result
        = .error (.unknownSerializationVersion v)) ↔
      ∃ b rest, in_ = b :: rest ∧ b ≠ 0) ∧
    ∀ b rest, in_ = b :: rest → b ≠ 0 →
      (internal_readFromStream sizeof_count V self in_).result
        = .error (.unknownSerializationVersion b.val) ∧
      (internal_readFromStream sizeof_count V self in_).rest = rest ∧
      (internal_readFromStream sizeof_count V self in_).self.refDistance
        = self.refDistance ∧
      (internal_readFromStream sizeof_count V self in_).self.m_alphaValuesCount
        = self.m_alphaValuesCount ∧
      (internal_readFromStream sizeof_count V self in_).self.m_score_priority
        = self.m_score_priority := by
  constructor
  · constructor
    · rintro ⟨v, hv⟩
      cases in_ with
      | nil => simp [internal_readFromStream, CStream_read] at hv
      | cons b rest =>
        refine ⟨b, rest, rfl, ?_⟩
        intro hb0
        subst hb0
        rcases readFromStream_version_zero sizeof_count V self rest with h | h <;>
          rw [h] at hv <;> cases hv
    · rintro ⟨b, rest, rfl, hb⟩
      exact ⟨b.val, by rw [readFromStream_bad_version sizeof_count V self b rest hb]⟩
  · rintro b rest rfl hb
    rw [readFromStream_bad_version sizeof_count V self b rest hb]
    obtain ⟨h1, h2, h3⟩ := deinitialize_params V self
    exact ⟨rfl, rfl, h1, h2, h3⟩

/-- Whatever the input, the lifecycle members of the object after the call are those
`deinitialize` left: nothing after the teardown touches them. -/
theorem readFromStream_lifecycle_fields (sizeof_count : Nat) (V : PTGVirtuals K G)
    (self : CParameterizedTrajectoryGenerator Nat G) (in_ : List Byte) :
    (internal_readFromStream sizeof_count V self in_).self.m_is_initialized
      = ( deinitialize V self).m_is_initialized ∧
    (internal_readFromStream sizeof_count V self in_).self.derived
      = ( deinitialize V self).derived ∧
    (internal_readFromStream sizeof_count V self in_).self.calls
      = ( deinitialize V self).calls := by
  cases in_ with
  | nil => simp [internal_readFromStream, CStream_read]
  | cons b rest =>
    by_cases hb : b = 0
    · subst hb
      have h0 : ((0 : Byte) : Nat) = 0 := rfl
      simp only [internal_readFromStream, CStream_read_version, h0, if_true]
      rcases CStream_read_cases sizeof_double rest with h | ⟨v, r, h⟩
      · simp [h]
      · rw [h]
        rcases CStream_read_cases sizeof_count r with h | ⟨v, r, h⟩
        · simp [h]
        · simp only [h]
          rcases CStream_read_cases sizeof_double r with h | ⟨v, r, h⟩
          · simp [h]
          · simp [h]
    · rw [readFromStream_bad_version sizeof_count V self b rest hb]
      exact ⟨rfl, rfl, rfl⟩

/-- What `deinitialize` does to the lifecycle members. -/
theorem deinitialize_lifecycle {D : Type} (V : PTGVirtuals K G)
    (self : CParameterizedTrajectoryGenerator D G) :
    ( deinitialize V self).m_is_initialized = false ∧
    (self.m_is_initialized = false → deinitialize V self = self) ∧
    (self.m_is_initialized = true →
      ( deinitialize V self).derived = PTGVirtuals.internal_deinitialize V self.derived ∧
      ( deinitialize V self).calls = VirtualCall.internal_deinitialize :: self.calls) := by
  unfold deinitialize
  cases h : self.m_is_initialized <;> simp [h]

/-- Reading a complete version-0 record: the three fields are taken from the stream
in the order `refDistance`, `m_alphaValuesCount`, `m_score_priority`, into the object
`deinitialize` left. -/
theorem readFromStream_complete (sizeof_count : Nat) (V : PTGVirtuals K G)
    (self : CParameterizedTrajectoryGenerator Nat G) (a b c rest : List Byte)
    (ha : a.length = sizeof_double) (hb : b.length = sizeof_count)
    (hc : c.length = sizeof_double) :
    internal_readFromStream sizeof_count V self ((0 : Byte) :: (a ++ (b ++ (c ++ rest)))) =
      ⟨.ok (),
        { deinitialize V self with
          refDistance := fromBytesLE a
          m_alphaValuesCount := fromBytesLE b
          m_score_priority := fromBytesLE c },
        rest⟩ := by
  have h0 : ((0 : Byte) : Nat) = 0 := rfl
  have read : ∀ (n : Nat) (x y : List Byte), x.length = n →
      CStream_read n (x ++ y) = (.ok (fromBytesLE x), y) := by
    intro n x y hx
    have hnot : ¬ ((x ++ y).length < n) := by rw [List.length_append, hx]; omega
    rw [CStream_read, if_neg hnot, List.take_left' hx, List.drop_left' hx]
  simp only [internal_readFromStream, CStream_read_version, h0, if_true,
    read sizeof_double a _ ha, read sizeof_count b _ hb, read sizeof_double c _ hc]

/-- C11 (as stated, refuted). On an initialized generator a stream with version byte 1
makes `internal_readFromStream` throw, and the generator after the call is not the one
before it: `isInitialized()` has become false and the precomputed geometry is gone. -/
theorem bad_version_changes_state :
    (internal_readFromStream 2 tableRobot readyPTGBits corruptedStream).result
      = .error (.unknownSerializationVersion 1) ∧
    isInitialized readyPTGBits = true ∧
    isInitialized (internal_readFromStream 2 tableRobot readyPTGBits corruptedStream).self
      = false ∧
    readyPTGBits.derived = [5, 5, 5] ∧
    (internal_readFromStream 2 tableRobot readyPTGBits corruptedStream).self.derived = [] ∧
    (internal_readFromStream 2 tableRobot readyPTGBits corruptedStream).self
      ≠ readyPTGBits := by
  have h : internal_readFromStream 2 tableRobot readyPTGBits corruptedStream =
      ⟨.error (.unknownSerializationVersion 1), deinitialize tableRobot readyPTGBits,
        (internal_writeToStream 2 defaultPTGBits []).tail⟩ :=
    readFromStream_bad_version 2 tableRobot readyPTGBits 1 _ (by decide)
  rw [h]
  refine ⟨rfl, rfl, rfl, rfl, rfl, ?_⟩
  intro hEq
  have hflag := congrArg CParameterizedTrajectoryGenerator.m_is_initialized hEq
  exact absurd hflag (by decide)

/-- C11 (amended). For every generator state and every input whose first byte is not 0,
`internal_readFromStream` throws the unknown-version exception and the generator after
the call is the one `deinitialize` leaves: the three parameters are unchanged,
`isInitialized()` is false, the generator is unchanged if it was not initialized, and
if it was initialized `internal_deinitialize` has been applied once to the derived
object. -/
theorem bad_version_leaves_deinitialized (sizeof_count : Nat) (V : PTGVirtuals K G)
    (self : CParameterizedTrajectoryGenerator Nat G) (b : Byte) (rest : List Byte)
    (hb : b ≠ 0) :
    (internal_readFromStream sizeof_count V self (b :: rest)).result
      = .error (.unknownSerializationVersion b.val) ∧
    (internal_readFromStream sizeof_count V self (b :: rest)).self = deinitialize V self ∧
    (internal_readFromStream sizeof_count V self (b :: rest)).self.refDistance
      = self.refDistance ∧
    (internal_readFromStream sizeof_count V self (b :: rest)).self.m_alphaValuesCount
      = self.m_alphaValuesCount ∧
    (internal_readFromStream sizeof_count V self (b :: rest)).self.m_score_priority
      = self.m_score_priority ∧
    isInitialized (internal_readFromStream sizeof_count V self (b :: rest)).self = false ∧
    (isInitialized self = false →
      (internal_readFromStream sizeof_count V self (b :: rest)).self = self) ∧
    (isInitialized self = true →
      (internal_readFromStream sizeof_count V self (b :: rest)).self.derived
        = PTGVirtuals.internal_deinitialize V self.derived ∧
      (internal_readFromStream sizeof_count V self (b :: rest)).self.calls
        = VirtualCall.internal_deinitialize :: self.calls) := by
  rw [readFromStream_bad_version sizeof_count V self b rest hb]
  obtain ⟨h1, h2, h3⟩ := deinitialize_params V self
  obtain ⟨l1, l2, l3⟩ := deinitialize_lifecycle V self
  exact ⟨rfl, rfl, h1, h2, h3, l1, l2, l3⟩

/-- C12 (as stated, refuted). Even with an 8-byte path count, what
`internal_writeToStream` writes for the default parameters is not the byte string of
the spec's field order (path count first), and reading the spec's byte string does
not give back the path count 121. -/
theorem wire_format_not_spec_order :
    internal_writeToStream 8 defaultPTGBits [] ≠ specWireFormat defaultPTGBits ∧
    (internal_readFromStream 8 discRobot defaultPTGBits
      (specWireFormat defaultPTGBits)).self.m_alphaValuesCount ≠ 121 := by
  constructor
  · decide
  · decide

/-- C12 (amended). `internal_writeToStream` appends the version byte 0 and then exactly
three fields in the order `refDistance` (8 bytes), `m_alphaValuesCount` (the size of
that member), `m_score_priority` (8 bytes); for version 0 `internal_readFromStream`
consumes three fields of these sizes in that same order and leaves what follows. -/
theorem wire_format_order (sizeof_count : Nat) (V : PTGVirtuals K G)
    (self reader : CParameterizedTrajectoryGenerator Nat G) (out a b c rest : List Byte)
    (ha : a.length = 8) (hb : b.length = sizeof_count) (hc : c.length = 8) :
    internal_writeToStream sizeof_count self out =
      out ++ ([(0 : Byte)] ++ (toBytesLE 8 self.refDistance ++
        (toBytesLE sizeof_count self.m_alphaValuesCount ++
          toBytesLE 8 self.m_score_priority))) ∧
    (internal_writeToStream sizeof_count self out).length
      = out.length + (1 + 8 + sizeof_count + 8) ∧
    (internal_readFromStream sizeof_count V reader
      ((0 : Byte) :: (a ++ (b ++ (c ++ rest))))).result = .ok () ∧
    (internal_readFromStream sizeof_count V reader
      ((0 : Byte) :: (a ++ (b ++ (c ++ rest))))).self.refDistance = fromBytesLE a ∧
    (internal_readFromStream sizeof_count V reader
      ((0 : Byte) :: (a ++ (b ++ (c ++ rest))))).self.m_alphaValuesCount
        = fromBytesLE b ∧
    (internal_readFromStream sizeof_count V reader
      ((0 : Byte) :: (a ++ (b ++ (c ++ rest))))).self.m_score_priority = fromBytesLE c ∧
    (internal_readFromStream sizeof_count V reader
      ((0 : Byte) :: (a ++ (b ++ (c ++ rest))))).rest = rest := by
  have hw : internal_writeToStream sizeof_count self out =
      out ++ ([(0 : Byte)] ++ (toBytesLE 8 self.refDistance ++
        (toBytesLE sizeof_count self.m_alphaValuesCount ++
          toBytesLE 8 self.m_score_priority))) := by
    have h1 : toBytesLE 1 0 = [(0 : Byte)] := rfl
    simp [internal_writeToStream, CStream_write, sizeof_double, h1, List.append_assoc]
  refine ⟨hw, ?_, ?_⟩
  · rw [hw]
    simp only [List.length_append, toBytesLE_length, List.length_singleton]
    omega
  · rw [readFromStream_complete sizeof_count V reader a b c rest ha hb hc]
    exact ⟨rfl, rfl, rfl, rfl, rfl⟩

/-- C13. Teardown before adopting: whatever the input, after `internal_readFromStream`
`isInitialized()` is false and `internal_deinitialize` has been invoked exactly once if
the generator was initialized and not at all otherwise; and for every complete
version-0 input the call returns normally with the object that `deinitialize` left,
its three parameters replaced by the decoded values. -/
theorem read_tears_down_before_adopting (sizeof_count : Nat) (V : PTGVirtuals K G)
    (self : CParameterizedTrajectoryGenerator Nat G) :
    (∀ in_ : List Byte,
      isInitialized (internal_readFromStream sizeof_count V self in_).self = false ∧
      geometryTeardowns (internal_readFromStream sizeof_count V self in_).self.calls
        = geometryTeardowns self.calls + (if isInitialized self then 1 else 0) ∧
      geometryConstructions (internal_readFromStream sizeof_count V self in_).self.calls
        = geometryConstructions self.calls ∧
      (internal_readFromStream sizeof_count V self in_).self.derived
        = (if isInitialized self then PTGVirtuals.internal_deinitialize V self.derived
            else self.derived)) ∧
    (∀ a b c rest : List Byte, a.length = 8 → b.length = sizeof_count → c.length = 8 →
      internal_readFromStream sizeof_count V self ((0 : Byte) :: (a ++ (b ++ (c ++ rest)))) =
        ⟨.ok (),
          { deinitialize V self with
            refDistance := fromBytesLE a
            m_alphaValuesCount := fromBytesLE b
            m_score_priority := fromBytesLE c },
          rest⟩) := by
  constructor
  · intro in_
    obtain ⟨f1, f2, f3⟩ := readFromStream_lifecycle_fields sizeof_count V self in_
    obtain ⟨l1, l2, l3⟩ := deinitialize_lifecycle V self
    simp only [isInitialized]
    rw [f1, f2, f3]
    by_cases h : self.m_is_initialized = true
    · obtain ⟨d1, d2⟩ := l3 h
      rw [d1, d2, if_pos h, if_pos h]
      exact ⟨l1, rfl, rfl, rfl⟩
    · have hf : self.m_is_initialized = false := by simpa using h
      rw [l2 hf, if_neg h, if_neg h]
      exact ⟨hf, rfl, rfl, rfl⟩
  · intro a b c rest ha hb hc
    exact readFromStream_complete sizeof_count V self a b c rest ha hb hc

/-! ## Theorems: lifecycle -/

/-- The two cases of `initialize`. -/
theorem initialize_cases {D : Type} (V : PTGVirtuals K G)
    (self : CParameterizedTrajectoryGenerator D G) (c : String) (v : Bool) :
    (self.m_is_initialized = true →
      CParameterizedTrajectoryGenerator.initialize V self c v = self) ∧
    (self.m_is_initialized = false →
      CParameterizedTrajectoryGenerator.initialize V self c v =
        { self with
          derived := PTGVirtuals.internal_initialize V c v self.derived
          calls := VirtualCall.internal_initialize c v :: self.calls
          m_is_initialized := true }) := by
  unfold CParameterizedTrajectoryGenerator.initialize
  constructor <;> intro h <;> simp [h]

/-- The two cases of `deinitialize`. -/
theorem deinitialize_cases {D : Type} (V : PTGVirtuals K G)
    (self : CParameterizedTrajectoryGenerator D G) :
    (self.m_is_initialized = false → deinitialize V self = self) ∧
    (self.m_is_initialized = true →
      deinitialize V self =
        { self with
          derived := PTGVirtuals.internal_deinitialize V self.derived
          calls := VirtualCall.internal_deinitialize :: self.calls
          m_is_initialized := false }) := by
  unfold deinitialize
  constructor <;> intro h <;> simp [h]

/-- Along any sequence of lifecycle calls the geometry is constructed once for each
`initialize` call that finds the generator uninitialized. -/
theorem runLifecycle_constructions {D : Type} (V : PTGVirtuals K G)
    (ops : List LifecycleCall) :
    ∀ self : CParameterizedTrajectoryGenerator D G,
      geometryConstructions (runLifecycle V self ops).calls =
        geometryConstructions self.calls + initializeCallsWhileUninitialized V self ops := by
  induction ops with
  | nil => intro self; rfl
  | cons op rest ih =>
    intro self
    cases op with
    | call_initialize c v =>
      rw [runLifecycle, initializeCallsWhileUninitialized, ih]
      by_cases h : self.m_is_initialized = true
      · rw [(initialize_cases V self c v).1 h]
        simp [isInitialized, h]
      · have hf : self.m_is_initialized = false := by simpa using h
        rw [(initialize_cases V self c v).2 hf]
        simp only [isInitialized, hf, geometryConstructions]
        simp
        omega
    | call_deinitialize =>
      rw [runLifecycle, initializeCallsWhileUninitialized, ih]
      by_cases h : self.m_is_initialized = true
      · rw [(deinitialize_cases V self).2 h]
        simp only [geometryConstructions]
      · have hf : self.m_is_initialized = false := by simpa using h
        rw [(deinitialize_cases V self).1 hf]

/-- C16. `initialize` is idempotent: on an initialized generator it changes nothing (no
call of `internal_initialize`); on an uninitialized one it calls `internal_initialize`
exactly once and sets `isInitialized()`; hence a second `initialize`, with any cache
key, right after the first changes nothing more, and the two calls together construct
the geometry exactly once (one construction in all on a fresh generator, whose call
log is empty). -/
theorem initialize_idempotent {D : Type} (V : PTGVirtuals K G)
    (self : CParameterizedTrajectoryGenerator D G) (c c2 : String) (v v2 : Bool) :
    (isInitialized self = true →
      CParameterizedTrajectoryGenerator.initialize V self c v = self) ∧
    (isInitialized self = false →
      CParameterizedTrajectoryGenerator.initialize V self c v =
        { self with
          derived := PTGVirtuals.internal_initialize V c v self.derived
          calls := VirtualCall.internal_initialize c v :: self.calls
          m_is_initialized := true } ∧
      isInitialized ( CParameterizedTrajectoryGenerator.initialize V self c v) = true ∧
      geometryConstructions ( CParameterizedTrajectoryGenerator.initialize V self c v).calls
        = geometryConstructions self.calls + 1 ∧
      CParameterizedTrajectoryGenerator.initialize V
          ( CParameterizedTrajectoryGenerator.initialize V self c v) c2 v2
        = CParameterizedTrajectoryGenerator.initialize V self c v ∧
      geometryConstructions ( CParameterizedTrajectoryGenerator.initialize V
          ( CParameterizedTrajectoryGenerator.initialize V self c v) c2 v2).calls
        = geometryConstructions self.calls + 1 ∧
      (self.calls = [] →
        geometryConstructions ( CParameterizedTrajectoryGenerator.initialize V
          ( CParameterizedTrajectoryGenerator.initialize V self c v) c2 v2).calls = 1)) := by
  refine ⟨(initialize_cases V self c v).1, fun h => ?_⟩
  have h1 := (initialize_cases V self c v).2 h
  have hinit : ( CParameterizedTrajectoryGenerator.initialize V self c v).m_is_initialized
      = true := by rw [h1]
  have h2 := (initialize_cases V
    ( CParameterizedTrajectoryGenerator.initialize V self c v) c2 v2).1 hinit
  have hcount : geometryConstructions
      ( CParameterizedTrajectoryGenerator.initialize V self c v).calls
        = geometryConstructions self.calls + 1 := by rw [h1]; rfl
  refine ⟨h1, hinit, hcount, h2, ?_, ?_⟩
  · rw [h2]; exact hcount
  · intro hfresh
    rw [h2, hcount, hfresh]
    rfl

/-- C17. `deinitialize` on an uninitialized generator changes nothing (no call of
`internal_deinitialize`); on an initialized one it calls `internal_deinitialize` exactly
once and clears `isInitialized()`. Hence along every sequence of `initialize` and
`deinitialize` calls the number of geometry constructions grows by the number of
`initialize` calls issued while uninitialized (from a fresh generator, whose log is
empty, it equals that number), and `initialize; deinitialize; initialize` on an
uninitialized generator constructs the geometry twice. -/
theorem deinitialize_and_construction_count {D : Type} (V : PTGVirtuals K G)
    (self : CParameterizedTrajectoryGenerator D G) :
    (isInitialized self = false → deinitialize V self = self) ∧
    (isInitialized self = true →
      deinitialize V self =
        { self with
          derived := PTGVirtuals.internal_deinitialize V self.derived
          calls := VirtualCall.internal_deinitialize :: self.calls
          m_is_initialized := false } ∧
      isInitialized ( deinitialize V self) = false ∧
      geometryTeardowns ( deinitialize V self).calls = geometryTeardowns self.calls + 1) ∧
    (∀ ops : List LifecycleCall,
      geometryConstructions (runLifecycle V self ops).calls =
        geometryConstructions self.calls + initializeCallsWhileUninitialized V self ops) ∧
    (self.calls = [] → ∀ ops : List LifecycleCall,
      geometryConstructions (runLifecycle V self ops).calls =
        initializeCallsWhileUninitialized V self ops) ∧
    (∀ (c1 c2 : String) (v1 v2 : Bool), isInitialized self = false →
      geometryConstructions (runLifecycle V self
        [LifecycleCall.call_initialize c1 v1, LifecycleCall.call_deinitialize,
          LifecycleCall.call_initialize c2 v2]).calls
        = geometryConstructions self.calls + 2) := by
  refine ⟨(deinitialize_cases V self).1, fun h => ?_,
    fun ops => runLifecycle_constructions V ops self, fun hfresh ops => ?_,
    fun c1 c2 v1 v2 h => ?_⟩
  · have h1 := (deinitialize_cases V self).2 h
    refine ⟨h1, ?_, ?_⟩
    · rw [h1]; rfl
    · rw [h1]; rfl
  · rw [runLifecycle_constructions V ops self, hfresh]
    simp [geometryConstructions]
  · have hf : self.m_is_initialized = false := h
    rw [runLifecycle_constructions V _ self]
    simp only [initializeCallsWhileUninitialized, isInitialized]
    rw [(initialize_cases V self c1 v1).2 hf]
    simp [ deinitialize, hf]

end CodecTheorems

/-! ## The theorems at the sample objects -/

theorem sampleObstacles_nonneg : ∀ o ∈ sampleObstacles, 0 ≤ o.new_tp_obs_dist := by
  simp [sampleObstacles]

theorem discRobot_origin_inside : discRobot.isPointInsideRobotShape () 0 0 = true := by
  simp [discRobot]

theorem defaultPTG_baseline (k : Nat) : initTPObstacleSingle discRobot defaultPTG k = 5 := by
  have h : size_t_pred 11 = 10 := by decide
  simp only [initTPObstacleSingle, discRobot, h, std_min, defaultPTG, loadDefaultParams]
  norm_num

theorem stop_mode_inside_obstacle_forces_zero_witness :
    foldTPObstacles discRobot COLL_BEH_STOP defaultPTG 5 sampleObstacles = .ok 0 :=
  stop_mode_inside_obstacle_forces_zero discRobot defaultPTG 5 sampleObstacles
    sampleObstacles_nonneg ⟨⟨0, 0, 1⟩, by simp [sampleObstacles], discRobot_origin_inside⟩

theorem back_away_inside_obstacle_witness :
    internal_TPObsDistancePostprocess discRobot COLL_BEH_BACK_AWAY defaultPTG 0 0 (1 / 4) 5
      = .ok 5 ∧
    internal_TPObsDistancePostprocess discRobot COLL_BEH_BACK_AWAY defaultPTG 0 0 (1 / 2) 5
      = .ok 0 :=
  ⟨(back_away_inside_obstacle discRobot defaultPTG 0 0 (1 / 4) 5 discRobot_origin_inside).1
      (by norm_num [discRobot]),
    (back_away_inside_obstacle discRobot defaultPTG 0 0 (1 / 2) 5 discRobot_origin_inside).2
      (by norm_num [discRobot])⟩

theorem free_distance_bounds_witness :
    ∃ d, foldTPObstacles discRobot COLL_BEH_BACK_AWAY defaultPTG
        (initTPObstacleSingle discRobot defaultPTG 3) sampleObstacles = .ok d ∧
      0 ≤ d ∧ d ≤ initTPObstacleSingle discRobot defaultPTG 3 :=
  (free_distance_bounds discRobot COLL_BEH_BACK_AWAY (Or.inr rfl) defaultPTG 3 sampleObstacles
    (by rw [defaultPTG_baseline]; norm_num) sampleObstacles_nonneg).2

theorem initTPObstacles_baseline_witness :
    (initTPObstacles discRobot defaultPTG [1, 2, 3]).length = 121 ∧
    (initTPObstacles discRobot defaultPTG [1, 2, 3])[120]? =
      some (min defaultPTG.refDistance
        (discRobot.getPathDist () 120 (size_t_pred (discRobot.getPathStepCount () 120)))) :=
  ⟨(initTPObstacles_baseline discRobot defaultPTG [1, 2, 3] (by decide)).1,
    ((initTPObstacles_baseline discRobot defaultPTG [1, 2, 3] (by decide)).2 120
      (by decide)).1⟩

theorem alpha2index_monotone_witness :
    alpha2index (355 / 113 : ℚ) RoundRule.halfAwayFromZero defaultPTG (-1)
      ≤ alpha2index (355 / 113 : ℚ) RoundRule.halfAwayFromZero defaultPTG 2 :=
  alpha2index_monotone (355 / 113 : ℚ) (by norm_num) RoundRule.halfAwayFromZero defaultPTG
    (-1) 2 (by decide) (by decide) (by norm_num) (by norm_num) (by norm_num)

theorem alpha2index_endpoints_witness :
    alpha2index (355 / 113 : ℚ) RoundRule.halfEven defaultPTG (-(355 / 113)) = 0 ∧
    alpha2index (355 / 113 : ℚ) RoundRule.halfEven (loadDefaultParams defaultPTG)
      (-(355 / 113) + 1 / 100) = 0 ∧
    alpha2index (355 / 113 : ℚ) RoundRule.halfEven (loadDefaultParams defaultPTG)
      (355 / 113 - 1 / 100) = 120 :=
  ⟨((alpha2index_endpoints (355 / 113 : ℚ) (by norm_num) RoundRule.halfEven).1 defaultPTG
      (by decide) (by decide)).1,
    (alpha2index_endpoints (355 / 113 : ℚ) (by norm_num) RoundRule.halfEven).2 defaultPTG
      (1 / 100) (by norm_num) (by norm_num)⟩

theorem alpha2index_zero_middle_witness :
    alpha2index (355 / 113 : ℚ) RoundRule.halfUp defaultPTG 0
      = (defaultPTG.m_alphaValuesCount - 1) / 2 :=
  (alpha2index_zero_middle (355 / 113 : ℚ) (by norm_num) RoundRule.halfUp).1 defaultPTG
    (by decide) (by decide)

theorem serialization_round_trip_witness :
    (internal_readFromStream 2 discRobot staleReaderBits
      (internal_writeToStream 2 defaultPTGBits [] ++ [])).result = .ok () ∧
    (internal_readFromStream 2 discRobot staleReaderBits
      (internal_writeToStream 2 defaultPTGBits [] ++ [])).self.m_alphaValuesCount = 121 ∧
    (internal_readFromStream 2 discRobot staleReaderBits
      (internal_writeToStream 2 defaultPTGBits [] ++ [])).self.refDistance = double_6_0 ∧
    (internal_readFromStream 2 discRobot staleReaderBits
      (internal_writeToStream 2 defaultPTGBits [] ++ [])).self.m_score_priority
        = double_1_0 ∧
    (internal_readFromStream 2 discRobot staleReaderBits
      (internal_writeToStream 2 defaultPTGBits [] ++ [])).rest = [] :=
  serialization_round_trip 2 discRobot defaultPTGBits staleReaderBits []
    (by decide) (by decide) (by decide)

theorem unknown_version_iff_witness :
    (internal_readFromStream 2 discRobot staleReaderBits corruptedStream).result
      = .error (.unknownSerializationVersion 1) ∧
    (internal_readFromStream 2 discRobot staleReaderBits corruptedStream).self.refDistance
      = 0 :=
  ⟨((unknown_version_iff 2 discRobot staleReaderBits corruptedStream).2 1
      (internal_writeToStream 2 defaultPTGBits []).tail (by rfl) (by decide)).1,
    ((unknown_version_iff 2 discRobot staleReaderBits corruptedStream).2 1
      (internal_writeToStream 2 defaultPTGBits []).tail (by rfl) (by decide)).2.2.1⟩

theorem outsideObstacles_outside :
    ∀ o ∈ outsideObstacles, discRobot.isPointInsideRobotShape defaultPTG.derived o.ox o.oy
      = false := by
  intro o ho
  simp only [outsideObstacles, List.mem_cons, List.mem_singleton, List.not_mem_nil,
    or_false] at ho
  rcases ho with rfl | rfl <;> norm_num [discRobot]

theorem bad_version_leaves_deinitialized_witness :
    (internal_readFromStream 2 tableRobot readyPTGBits
      (1 :: (internal_writeToStream 2 defaultPTGBits []).tail)).self
        = deinitialize tableRobot readyPTGBits ∧
    isInitialized (internal_readFromStream 2 tableRobot readyPTGBits
      (1 :: (internal_writeToStream 2 defaultPTGBits []).tail)).self = false :=
  ⟨(bad_version_leaves_deinitialized 2 tableRobot readyPTGBits 1
      (internal_writeToStream 2 defaultPTGBits []).tail (by decide)).2.1,
    (bad_version_leaves_deinitialized 2 tableRobot readyPTGBits 1
      (internal_writeToStream 2 defaultPTGBits []).tail (by decide)).2.2.2.2.2.1⟩

theorem wire_format_order_witness :
    (internal_readFromStream 2 discRobot staleReaderBits
      ((0 : Byte) :: (toBytesLE 8 double_6_0 ++ (toBytesLE 2 121 ++
        (toBytesLE 8 double_1_0 ++ []))))).self.refDistance
      = fromBytesLE (toBytesLE 8 double_6_0) ∧
    (internal_readFromStream 2 discRobot staleReaderBits
      ((0 : Byte) :: (toBytesLE 8 double_6_0 ++ (toBytesLE 2 121 ++
        (toBytesLE 8 double_1_0 ++ []))))).self.m_alphaValuesCount
      = fromBytesLE (toBytesLE 2 121) :=
  ⟨(wire_format_order 2 discRobot defaultPTGBits staleReaderBits [] (toBytesLE 8 double_6_0)
      (toBytesLE 2 121) (toBytesLE 8 double_1_0) [] (by decide) (by decide)
      (by decide)).2.2.2.1,
    (wire_format_order 2 discRobot defaultPTGBits staleReaderBits [] (toBytesLE 8 double_6_0)
      (toBytesLE 2 121) (toBytesLE 8 double_1_0) [] (by decide) (by decide)
      (by decide)).2.2.2.2.1⟩

theorem read_tears_down_before_adopting_witness :
    isInitialized (internal_readFromStream 2 discRobot staleReaderBits corruptedStream).self
      = false ∧
    internal_readFromStream 2 discRobot staleReaderBits
      ((0 : Byte) :: (toBytesLE 8 double_6_0 ++ (toBytesLE 2 121 ++
        (toBytesLE 8 double_1_0 ++ [])))) =
      ⟨.ok (),
        { deinitialize discRobot staleReaderBits with
          refDistance := fromBytesLE (toBytesLE 8 double_6_0)
          m_alphaValuesCount := fromBytesLE (toBytesLE 2 121)
          m_score_priority := fromBytesLE (toBytesLE 8 double_1_0) },
        []⟩ :=
  ⟨((read_tears_down_before_adopting 2 discRobot staleReaderBits).1 corruptedStream).1,
    (read_tears_down_before_adopting 2 discRobot staleReaderBits).2 (toBytesLE 8 double_6_0)
      (toBytesLE 2 121) (toBytesLE 8 double_1_0) [] (by decide) (by decide) (by decide)⟩

theorem not_inside_fold_is_min_witness :
    foldTPObstacles discRobot 7 defaultPTG 5 outsideObstacles.reverse
      = foldTPObstacles discRobot 7 defaultPTG 5 outsideObstacles :=
  (not_inside_fold_is_min discRobot 7 defaultPTG 5 outsideObstacles outsideObstacles.reverse
    outsideObstacles_outside (List.reverse_perm outsideObstacles).symm).2.2.2.2

theorem unrecognized_mode_throws_inside_witness :
    internal_TPObsDistancePostprocess discRobot 7 defaultPTG 0 0 2 5 =
      .error (.exception "Obstacle postprocessing enum not implemented!") :=
  (unrecognized_mode_throws_inside discRobot 7 (by decide) (by decide) defaultPTG 0 0 2 5).1
    discRobot_origin_inside

theorem initialize_idempotent_witness :
    geometryConstructions ( CParameterizedTrajectoryGenerator.initialize discRobot
      ( CParameterizedTrajectoryGenerator.initialize discRobot defaultPTG "cache" false)
      "cache" false).calls = geometryConstructions defaultPTG.calls + 1 :=
  ((initialize_idempotent discRobot defaultPTG "cache" "cache" false false).2 rfl).2.2.2.2.1

theorem deinitialize_and_construction_count_witness :
    geometryConstructions (runLifecycle discRobot defaultPTG
      [LifecycleCall.call_initialize "cache" false, LifecycleCall.call_deinitialize,
        LifecycleCall.call_initialize "cache" false]).calls
      = geometryConstructions defaultPTG.calls + 2 :=
  (deinitialize_and_construction_count discRobot defaultPTG).2.2.2.2 "cache" "cache" false
    false rfl

theorem back_away_fold_closed_form_witness :
    foldTPObstacles discRobot COLL_BEH_BACK_AWAY defaultPTG 5 sampleObstacles = .ok 0 ∧
    foldTPObstacles discRobot COLL_BEH_BACK_AWAY defaultPTG 5 sampleObstacles.reverse
      = foldTPObstacles discRobot COLL_BEH_BACK_AWAY defaultPTG 5 sampleObstacles :=
  ⟨(back_away_fold_closed_form discRobot defaultPTG 5 sampleObstacles sampleObstacles.reverse
      sampleObstacles_nonneg (List.reverse_perm sampleObstacles).symm).1
      ⟨⟨0, 0, 1⟩, by simp [sampleObstacles], discRobot_origin_inside,
        by norm_num [discRobot]⟩,
    (back_away_fold_closed_form discRobot defaultPTG 5 sampleObstacles sampleObstacles.reverse
      sampleObstacles_nonneg (List.reverse_perm sampleObstacles).symm).2.2⟩

theorem alpha2index_index2alpha_witness :
    alpha2index (355 / 113 : ℚ) RoundRule.halfEven defaultPTG
      (index2alpha (355 / 113 : ℚ) defaultPTG 60) = 60 :=
  (alpha2index_index2alpha (355 / 113 : ℚ) (by norm_num) RoundRule.halfEven defaultPTG
    (by decide) 60 (by decide)).2.2.1

end mrpt.nav
